import Mathlib

/- Verification of the poor-maps navigation narration core: a shallow embedding
   of poor/narrative.py and poor/voice.py, with theorems about the embedded
   operations.  Python floats are modelled as rationals; fallible code (list
   indexing that can raise IndexError, attribute access on None) is modelled in
   the Option monad, `none` standing for a raised exception. -/

set_option autoImplicit false
set_option maxHeartbeats 1000000

/-! ## Geometry parameters

The helpers `calculate_distance`, `calculate_segment_distance` and
`calculate_bearing` live in `poor.util`, which is not part of the narration
sources; the spec says only that they return distances in meters (its
end-to-end examples treat coordinates directly as planar meters).  The
embedding therefore takes them as an explicit parameter record, and theorems
that need concrete values instantiate it with `taxiGeo` below. -/

/-- Modelled from the spec: the distance helpers of `poor.util` (absent from
the narration sources).  `dist x1 y1 x2 y2` is the distance in meters between
two points, `segDist x y x1 y1 x2 y2` the distance in meters from a point to a
segment, `bearing` the bearing of a segment. -/
structure Geo where
  dist : ℚ → ℚ → ℚ → ℚ → ℚ
  segDist : ℚ → ℚ → ℚ → ℚ → ℚ → ℚ → ℚ
  bearing : ℚ → ℚ → ℚ → ℚ → ℚ

/-- Distance from a value to the interval spanned by `a` and `b`. -/
def distToInterval (v a b : ℚ) : ℚ :=
  max 0 (max (min a b - v) (v - max a b))

/-- Modelled from the spec: a concrete, exactly computable instance of the
planar geometry used by the spec's examples (coordinates in meters).  Distances
are taxicab distances, which coincide with the Euclidean values on the
axis-aligned point/segment configurations used in all concrete states below.
The bearing component is never observed by any theorem (direction is only
computed within 50 m of the route, which the concrete states avoid). -/
def taxiGeo : Geo where
  dist := fun x1 y1 x2 y2 => |x2 - x1| + |y2 - y1|
  segDist := fun x y x1 y1 x2 y2 =>
    if x1 = x2 then |x - x1| + distToInterval y y1 y2
    else if y1 = y2 then |y - y1| + distToInterval x x1 x2
    else min (|x - x1| + |y - y1|) (|x - x2| + |y - y2|)
  bearing := fun _ _ _ _ => 0

/-! ## Verbal prompts and maneuvers (narrative.py, classes VerbalPrompt and Maneuver) -/

/-- Embedding of narrative.py class `VerbalPrompt`: a prompt text together with
the distance from the maneuver at which it should fire. -/
structure VerbalPrompt where
  distance : ℚ
  prompt : String
deriving DecidableEq, Repr

/-- Embedding of narrative.py class `Maneuver` (its data fields). -/
structure Maneuver where
  duration : ℚ
  icon : String
  length : ℚ
  narrative : String
  verbal_alert : Option String
  verbal_pre : Option String
  verbal_post : Option String
  verbal_prompts_before : List VerbalPrompt
  node : Option ℕ
  x : ℚ
  y : ℚ
deriving DecidableEq, Repr

/-- Embedding of the keyword data a router supplies for one maneuver
(narrative.py `set_maneuvers` docstring: `x`, `y`, `duration` required, the
rest optional; `none` models an absent key). -/
structure ManeuverKwargs where
  x : ℚ
  y : ℚ
  duration : ℚ
  icon : Option String := none
  narrative : Option String := none
  verbal_alert : Option String := none
  verbal_pre : Option String := none
  verbal_post : Option String := none
  passive : Bool := false
deriving DecidableEq, Repr

/-- Embedding of `Maneuver.__init__` (narrative.py lines 44-67): defaults are
set, present keyword values override them, then a missing `verbal_alert` or
`verbal_pre` falls back to the narrative text. -/
def Maneuver.ofKwargs (k : ManeuverKwargs) : Maneuver :=
  let narr := k.narrative.getD ""
  { duration := k.duration
    icon := k.icon.getD "flag"
    length := 0
    narrative := narr
    verbal_alert := some (k.verbal_alert.getD narr)
    verbal_pre := some (k.verbal_pre.getD narr)
    verbal_post := k.verbal_post
    verbal_prompts_before := []
    node := none
    x := k.x
    y := k.y }

/-- Embedding of `Maneuver.is_same`: maneuvers are compared by node. -/
def Maneuver.isSame (self m : Maneuver) : Bool :=
  m.node == self.node

/-- Embedding of the constant `self.voice_pre_distance = 50` set in
`Maneuver.__init__`. -/
def voicePreDistance : ℚ := 50

/-- Embedding of the constant `self.voice_pre_time = 5` set in
`Maneuver.__init__`. -/
def voicePreTime : ℚ := 5

/-- Modelled from the spec: `poor.util.round_distance` is not under the
narration sources; the spec says only that the alert distance substituted into
the prompt is rounded, so it is modelled as rounding to the nearest whole
meter. -/
def roundDistance (q : ℚ) : ℚ :=
  ((⌊q + 1/2⌋ : ℤ) : ℚ)

/-- Modelled from the spec: `poor.util.format_distance` renders a distance for
display; its exact text is irrelevant to every claim, so it is modelled as the
decimal rendering of the rational value. -/
def formatDistance (q : ℚ) : String :=
  toString q

/-- Modelled from the spec: the localized alert template of i18n/`__`,
"In distance, direction", instantiated for a language.  The text content is
irrelevant to the claims; the model keeps the dependence on language, distance
and direction phrase. -/
def alertText (language : String) (distance : ℚ) (direction : String) : String :=
  language ++ ": In " ++ formatDistance distance ++ ", " ++ direction

/-- Embedding of `Maneuver.fill_verbal_prompts` (narrative.py lines 73-101):
returns the prompt list the method stores into `verbal_prompts_before`.  The
pre-announcement prompt (if any) is appended first, then the alert prompts in
the order of the duration-selected time tiers. -/
def Maneuver.fillVerbalPrompts (self : Maneuver) (length duration : ℚ)
    (language : String) : List VerbalPrompt :=
  let speed := length / max 1 duration
  let base : List VerbalPrompt :=
    match self.verbal_pre with
    | some pre => [⟨max voicePreDistance (voicePreTime * speed), pre⟩]
    | none => []
  let alerts : List VerbalPrompt :=
    match self.verbal_alert with
    | some alert =>
        let times : List ℚ :=
          if duration > 1800 then [30, 90]
          else if duration > 600 then [35]
          else if duration > 60 then [20]
          else []
        times.map (fun t =>
          let distance_alert := roundDistance (t * speed)
          ⟨distance_alert, alertText language distance_alert alert⟩)
    | none => []
  base ++ alerts

/-! ## Voice direction pipeline (voice.py, class VoiceDirection) -/

/-- Embedding of voice.py class `Voice`: cache entry holding the artifact file
name (none while pending or failed) and the wanted time. -/
structure Voice where
  filename : Option String
  time : ℚ
deriving DecidableEq, Repr

/-- Embedding of voice.py class `VoiceDirection` (its state).  `engineActive`
models `self.engine is not None`; `queue_tasks` the texts put into the task
queue and not yet taken by the worker; `queue_results` the finished
(text, artifact) pairs not yet drained (`none` while the result queue does not
exist yet); the cache is an insertion-ordered association list like a Python
dict. -/
structure VoiceDirection where
  engineActive : Bool
  cache : List (String × Voice)
  queue_tasks : List String
  queue_results : Option (List (String × Option String))
  workerStarted : Bool
  last_cache_check_time : ℚ
deriving DecidableEq, Repr

/-- Lookup in the insertion-ordered cache. -/
def cacheLookup (c : List (String × Voice)) (k : String) : Option Voice :=
  (c.find? (fun e => e.1 == k)).map (·.2)

/-- Setting the artifact file name of the entry with key `k`
(`self.cache[cmd].filename = fname`). -/
def cacheSetFilename (c : List (String × Voice)) (k : String)
    (fn : Option String) : List (String × Voice) :=
  c.map (fun e => if e.1 == k then (e.1, { e.2 with filename := fn }) else e)

/-- Setting the wanted time of the entry with key `k`
(`self.cache[cmd].time = time`). -/
def cacheSetTime (c : List (String × Voice)) (k : String)
    (t : ℚ) : List (String × Voice) :=
  c.map (fun e => if e.1 == k then (e.1, { e.2 with time := t }) else e)

/-- Embedding of `VoiceDirection._update_cache`: drain every finished result
into the cache.  (Python would raise KeyError on a result whose key is no
longer cached; results always correspond to enqueued tasks whose placeholder
entry exists in the states the theorems use, and a missing key is modelled as
leaving the cache unchanged.) -/
def VoiceDirection.updateCache (v : VoiceDirection) : VoiceDirection :=
  match v.queue_results with
  | none => v
  | some rs =>
      { v with cache := rs.foldl (fun c r => cacheSetFilename c r.1 r.2) v.cache
               queue_results := some [] }

/-- Embedding of `VoiceDirection.get`: drain results, then return the cached
artifact file name (none when absent, pending or failed) together with the
drained state. -/
def VoiceDirection.get (v : VoiceDirection) (cmd : String) :
    Option String × VoiceDirection :=
  let v' := v.updateCache
  ((cacheLookup v'.cache cmd).bind Voice.filename, v')

/-- Embedding of `VoiceDirection.make` (voice.py lines 345-369): no-op without
an engine; otherwise drain results, then either lower the wanted time of an
existing entry, or start the worker if needed, insert a placeholder entry and
enqueue the synthesis task. -/
def VoiceDirection.make (v : VoiceDirection) (cmd : String) (time : ℚ) :
    VoiceDirection :=
  if ¬ v.engineActive then v
  else
    let v := v.updateCache
    match cacheLookup v.cache cmd with
    | some voice =>
        if voice.time > time then { v with cache := cacheSetTime v.cache cmd time }
        else v
    | none =>
        let v :=
          if v.workerStarted then v
          else { v with workerStarted := true, queue_tasks := [], queue_results := some [] }
        { v with cache := v.cache ++ [(cmd, ⟨none, time⟩)]
                 queue_tasks := v.queue_tasks ++ [cmd] }

/-- Embedding of `VoiceDirection.set_time` (voice.py lines 390-401): throttled
cache-expiry sweep. -/
def VoiceDirection.setTime (v : VoiceDirection) (time : ℚ) : VoiceDirection :=
  if |time - v.last_cache_check_time| < 600 then v
  else
    { v with last_cache_check_time := time
             cache := v.cache.filter (fun e => ¬ e.2.time - time > 600) }

/-- Embedding of `VoiceDirection.clean`: stop the worker (which drains every
pending task into results, which are then drained into the cache) and clear
the whole cache. -/
def VoiceDirection.clean (v : VoiceDirection) : VoiceDirection :=
  { v with workerStarted := false
           queue_tasks := if v.workerStarted then [] else v.queue_tasks
           queue_results := if v.workerStarted then some [] else v.queue_results
           cache := []
           last_cache_check_time := 0 }

/-- Invariant of the synthesis pipeline: every enqueued task is pairwise
distinct and has a cache entry. -/
def VoiceInv (v : VoiceDirection) : Prop :=
  v.queue_tasks.Nodup ∧ ∀ c ∈ v.queue_tasks, (cacheLookup v.cache c).isSome = true

/-! ## Helper lemmas about the cache and rounding -/

theorem roundDistance_mono {a b : ℚ} (h : a ≤ b) : roundDistance a ≤ roundDistance b := by
  unfold roundDistance
  exact_mod_cast Int.floor_mono (by linarith)

theorem le_roundDistance {a q : ℚ} (h : a ≤ q - 1/2) : a ≤ roundDistance q := by
  unfold roundDistance
  have h2 : q + 1/2 - 1 < ((⌊q + 1/2⌋ : ℤ) : ℚ) := Int.sub_one_lt_floor _
  linarith


@[simp] theorem cacheLookup_nil (a : String) : cacheLookup [] a = none := rfl

theorem cacheLookup_cons (e : String × Voice) (rest : List (String × Voice)) (a : String) :
    cacheLookup (e :: rest) a = if e.1 == a then some e.2 else cacheLookup rest a := by
  by_cases h : e.1 == a <;> simp [cacheLookup, List.find?, h]

theorem cacheLookup_setFilename_isSome (c : List (String × Voice)) (k a : String)
    (fn : Option String) :
    (cacheLookup (cacheSetFilename c k fn) a).isSome = (cacheLookup c a).isSome := by
  induction c with
  | nil => rfl
  | cons e rest ih =>
      show (cacheLookup ((if e.1 == k then (e.1, { e.2 with filename := fn }) else e)
        :: cacheSetFilename rest k fn) a).isSome = _
      rw [cacheLookup_cons, cacheLookup_cons]
      by_cases h : e.1 == k <;> by_cases h2 : e.1 == a <;> simp [h, h2, ih]

theorem cacheLookup_setTime_isSome (c : List (String × Voice)) (k a : String) (t : ℚ) :
    (cacheLookup (cacheSetTime c k t) a).isSome = (cacheLookup c a).isSome := by
  induction c with
  | nil => rfl
  | cons e rest ih =>
      show (cacheLookup ((if e.1 == k then (e.1, { e.2 with time := t }) else e)
        :: cacheSetTime rest k t) a).isSome = _
      rw [cacheLookup_cons, cacheLookup_cons]
      by_cases h : e.1 == k <;> by_cases h2 : e.1 == a <;> simp [h, h2, ih]

theorem cacheLookup_drain_isSome (rs : List (String × Option String))
    (c : List (String × Voice)) (a : String) :
    (cacheLookup (rs.foldl (fun c r => cacheSetFilename c r.1 r.2) c) a).isSome
      = (cacheLookup c a).isSome := by
  induction rs generalizing c with
  | nil => rfl
  | cons r rest ih => rw [List.foldl_cons, ih, cacheLookup_setFilename_isSome]

theorem cacheLookup_append (c d : List (String × Voice)) (a : String) :
    cacheLookup (c ++ d) a
      = if (cacheLookup c a).isSome then cacheLookup c a else cacheLookup d a := by
  induction c with
  | nil => simp
  | cons e rest ih =>
      rw [List.cons_append, cacheLookup_cons, cacheLookup_cons]
      by_cases h : e.1 == a <;> simp [h, ih]

theorem updateCache_queue_tasks (v : VoiceDirection) :
    (v.updateCache).queue_tasks = v.queue_tasks := by
  unfold VoiceDirection.updateCache
  cases v.queue_results <;> rfl

theorem updateCache_workerStarted (v : VoiceDirection) :
    (v.updateCache).workerStarted = v.workerStarted := by
  unfold VoiceDirection.updateCache
  cases v.queue_results <;> rfl

theorem updateCache_inv (v : VoiceDirection) (h : VoiceInv v) : VoiceInv v.updateCache := by
  obtain ⟨h1, h2⟩ := h
  unfold VoiceDirection.updateCache
  cases hq : v.queue_results with
  | none => exact ⟨h1, h2⟩
  | some rs =>
      refine ⟨h1, fun c hc => ?_⟩
      rw [cacheLookup_drain_isSome]
      exact h2 c hc

theorem voice_make_of_cached (v : VoiceDirection) (cmd : String) (time : ℚ) (voice : Voice)
    (hact : v.engineActive = true)
    (hl : cacheLookup (v.updateCache).cache cmd = some voice) :
    v.make cmd time =
      (if voice.time > time
       then { v.updateCache with cache := cacheSetTime (v.updateCache).cache cmd time }
       else v.updateCache) := by
  unfold VoiceDirection.make
  rw [if_neg (by simp [hact])]
  simp only [hl]

theorem voice_make_of_uncached (v : VoiceDirection) (cmd : String) (time : ℚ)
    (hact : v.engineActive = true)
    (hl : cacheLookup (v.updateCache).cache cmd = none) :
    v.make cmd time =
      (let w :=
        if (v.updateCache).workerStarted then v.updateCache
        else { v.updateCache with workerStarted := true, queue_tasks := [], queue_results := some [] }
       { w with cache := w.cache ++ [(cmd, ⟨none, time⟩)], queue_tasks := w.queue_tasks ++ [cmd] }) := by
  unfold VoiceDirection.make
  rw [if_neg (by simp [hact])]
  simp only [hl]

theorem voice_make_preserves_inv (v : VoiceDirection) (cmd : String) (t : ℚ)
    (h : VoiceInv v) : VoiceInv (v.make cmd t) := by
  by_cases hact : v.engineActive = true
  · obtain ⟨h1, h2⟩ := updateCache_inv v h
    cases hl : cacheLookup (v.updateCache).cache cmd with
    | some voice =>
        rw [voice_make_of_cached v cmd t voice hact hl]
        by_cases hgt : voice.time > t
        · rw [if_pos hgt]
          exact ⟨h1, fun c hc => by rw [cacheLookup_setTime_isSome]; exact h2 c hc⟩
        · rw [if_neg hgt]
          exact ⟨h1, h2⟩
    | none =>
        rw [voice_make_of_uncached v cmd t hact hl]
        have hnotin : cmd ∉ (v.updateCache).queue_tasks := by
          intro hmem
          have hx := h2 cmd hmem
          rw [hl] at hx
          simp at hx
        by_cases hw : (v.updateCache).workerStarted = true
        · simp only [hw, if_true]
          constructor
          · simp only [List.nodup_append, List.nodup_singleton]
            exact ⟨h1, trivial, by simpa using hnotin⟩
          · intro c hc
            rcases List.mem_append.mp hc with hc1 | hc2
            · rw [cacheLookup_append, if_pos (h2 c hc1)]
              exact h2 c hc1
            · simp only [List.mem_singleton] at hc2
              subst hc2
              rw [cacheLookup_append, hl]
              simp [cacheLookup_cons]
        · simp only [hw, if_false, Bool.false_eq_true]
          constructor
          · simp
          · intro c hc
            simp only [List.nil_append, List.mem_singleton] at hc
            subst hc
            rw [cacheLookup_append, hl]
            simp [cacheLookup_cons]
  · have heq : v.make cmd t = v := by
      unfold VoiceDirection.make
      rw [if_pos (by simp [hact])]
    rw [heq]
    exact h

/-- Concrete pipeline state used as witness input: active engine, empty cache. -/
def voiceW : VoiceDirection :=
  { engineActive := true, cache := [], queue_tasks := [], queue_results := none,
    workerStarted := false, last_cache_check_time := 0 }

/-- Concrete pipeline state used as witness input for the eviction sweep:
entries wanted 1601 and 1599 time units after the sweep time 1000. -/
def voiceW7 : VoiceDirection :=
  { engineActive := true, cache := [("a", ⟨none, 1601⟩), ("b", ⟨some "fb", 1599⟩)],
    queue_tasks := [], queue_results := some [], workerStarted := true,
    last_cache_check_time := 0 }

/-- C6: for every sequence of `make` calls, every enqueued synthesis task is
unique and backed by a cache entry (at most one task per distinct text while
its entry exists), and a `make` whose text is already cached (after draining
results) enqueues nothing and only lowers the stored wanted time to the
minimum of the stored and requested values. -/
theorem voice_make_at_most_one_task (v : VoiceDirection) (calls : List (String × ℚ))
    (hInv : VoiceInv v) :
    VoiceInv (calls.foldl (fun w c => w.make c.1 c.2) v)
    ∧ (∀ cmd t voice, v.engineActive = true →
        cacheLookup (v.updateCache).cache cmd = some voice →
        (v.make cmd t).queue_tasks = v.queue_tasks
        ∧ (v.make cmd t).cache =
            (if voice.time > t then cacheSetTime (v.updateCache).cache cmd t
             else (v.updateCache).cache)) := by
  constructor
  · induction calls generalizing v with
    | nil => exact hInv
    | cons c rest ih => exact ih _ (voice_make_preserves_inv v c.1 c.2 hInv)
  · intro cmd t voice hact hl
    rw [voice_make_of_cached v cmd t voice hact hl]
    by_cases hgt : voice.time > t
    · rw [if_pos hgt, if_pos hgt]
      exact ⟨updateCache_queue_tasks v, rfl⟩
    · rw [if_neg hgt, if_neg hgt]
      exact ⟨updateCache_queue_tasks v, rfl⟩

/-- Witness for C6 at a concrete input: two requests for the same text with an
active engine; only one task is ever enqueued and the invariant holds. -/
theorem voice_make_at_most_one_task_witness :
    VoiceInv voiceW
    ∧ VoiceInv ([("a", (5 : ℚ)), ("a", 3)].foldl (fun w c => w.make c.1 c.2) voiceW) :=
  ⟨⟨by decide, by decide⟩,
   (voice_make_at_most_one_task voiceW [("a", 5), ("a", 3)] ⟨by decide, by decide⟩).1⟩

/-- C7: the sweep `set_time(now)` leaves everything unchanged when `now` is
within 600 time units of the last check; otherwise it sets the check time to
`now` and keeps exactly the cache entries whose wanted time does not exceed
`now` by more than 600 units, touching nothing else. -/
theorem voice_setTime_eviction (v : VoiceDirection) (now : ℚ) :
    (|now - v.last_cache_check_time| < 600 → v.setTime now = v)
    ∧ (¬ |now - v.last_cache_check_time| < 600 →
        (v.setTime now).cache = v.cache.filter (fun e => e.2.time ≤ now + 600)
        ∧ (v.setTime now).last_cache_check_time = now
        ∧ (v.setTime now).queue_tasks = v.queue_tasks
        ∧ (v.setTime now).queue_results = v.queue_results
        ∧ (v.setTime now).engineActive = v.engineActive
        ∧ (v.setTime now).workerStarted = v.workerStarted) := by
  constructor
  · intro hlt
    unfold VoiceDirection.setTime
    rw [if_pos hlt]
  · intro hge
    unfold VoiceDirection.setTime
    rw [if_neg hge]
    refine ⟨?_, rfl, rfl, rfl, rfl, rfl⟩
    apply List.filter_congr
    intro e _
    simp only [decide_eq_decide, decide_eq_true_eq]
    constructor
    · intro hx
      by_contra hc
      simp only [not_le] at hc
      exact hx (by linarith)
    · intro hx hy
      linarith

/-- Witness for C7 at a concrete input: sweeping at time 1000 with last check 0
evicts the entry wanted at 1601 (601 units beyond the 600-unit window) and
keeps the one wanted at 1599 (599 units beyond). -/
theorem voice_setTime_eviction_witness :
    (¬ |(1000 : ℚ) - voiceW7.last_cache_check_time| < 600)
    ∧ (voiceW7.setTime 1000).cache = voiceW7.cache.filter (fun e => e.2.time ≤ 1000 + 600)
    ∧ (voiceW7.setTime 1000).cache = [("b", ⟨some "fb", 1599⟩)] := by
  have h1 : ¬ |(1000 : ℚ) - voiceW7.last_cache_check_time| < 600 := by
    norm_num [voiceW7]
  refine ⟨h1, ((voice_setTime_eviction voiceW7 1000).2 h1).1, ?_⟩
  norm_num [VoiceDirection.setTime, voiceW7]

/-- C10: constructing a maneuver from router keyword data defaults a missing
`verbal_alert` or `verbal_pre` to the narrative text (empty when the narrative
is also absent), so they are never `none` after construction and prompt
generation always emits at least the pre-announcement prompt; only
`verbal_post` keeps its (possibly absent) router value. -/
theorem maneuver_ofKwargs_verbal_defaults (k : ManeuverKwargs) :
    (Maneuver.ofKwargs k).verbal_alert = some (k.verbal_alert.getD (k.narrative.getD ""))
    ∧ (Maneuver.ofKwargs k).verbal_pre = some (k.verbal_pre.getD (k.narrative.getD ""))
    ∧ (Maneuver.ofKwargs k).verbal_post = k.verbal_post
    ∧ ∀ len dur language, (Maneuver.ofKwargs k).fillVerbalPrompts len dur language ≠ [] := by
  refine ⟨rfl, rfl, rfl, fun len dur language => ?_⟩
  simp [Maneuver.fillVerbalPrompts, Maneuver.ofKwargs]

/-- Concrete kwargs for the prompt-order counterexample: a 19000 m leg driven
in 1900 s (10 m/s). -/
def kwargsK4 : ManeuverKwargs :=
  { x := 0, y := 0, duration := 1900, narrative := some "turn left" }

/-- C4 counterexample: with leg length 19000 m and duration 1900 s the prompt
thresholds are built as the list 50, 300, 900 — ascending, so the list is not
sorted by descending distance threshold. -/
theorem fillVerbalPrompts_not_descending :
    ¬ List.Chain' (fun a b : ℚ => b ≤ a)
      (((Maneuver.ofKwargs kwargsK4).fillVerbalPrompts 19000 1900 "en").map
        VerbalPrompt.distance) := by
  have hval :
      ((Maneuver.ofKwargs kwargsK4).fillVerbalPrompts 19000 1900 "en").map
        VerbalPrompt.distance = [50, 300, 900] := by
    norm_num [Maneuver.fillVerbalPrompts, Maneuver.ofKwargs, kwargsK4, roundDistance,
      voicePreDistance, voicePreTime]
  rw [hval]
  simp [List.chain'_cons]
  norm_num

/-- C4 (amended): the prompt list is the pre-announcement prompt followed by
the alert prompts in ascending threshold order, and the whole list is sorted
by ascending distance threshold whenever the leg speed is at least 2.5 m/s. -/
theorem fillVerbalPrompts_sorted_ascending (m : Maneuver) (len dur : ℚ)
    (language : String) (hspeed : 5/2 ≤ len / max 1 dur) :
    List.Chain' (· ≤ ·)
      ((m.fillVerbalPrompts len dur language).map VerbalPrompt.distance) := by
  unfold Maneuver.fillVerbalPrompts
  set s := len / max 1 dur with hs
  have hr50 : roundDistance 50 = 50 := by norm_num [roundDistance]
  have hpre30 : max voicePreDistance (voicePreTime * s) ≤ roundDistance (30 * s) := by
    apply max_le
    · rw [voicePreDistance, ← hr50]
      exact roundDistance_mono (by linarith)
    · exact le_roundDistance (by rw [voicePreTime]; linarith)
  have hpre35 : max voicePreDistance (voicePreTime * s) ≤ roundDistance (35 * s) := by
    apply max_le
    · rw [voicePreDistance, ← hr50]
      exact roundDistance_mono (by linarith)
    · exact le_roundDistance (by rw [voicePreTime]; linarith)
  have hpre20 : max voicePreDistance (voicePreTime * s) ≤ roundDistance (20 * s) := by
    apply max_le
    · rw [voicePreDistance, ← hr50]
      exact roundDistance_mono (by linarith)
    · exact le_roundDistance (by rw [voicePreTime]; linarith)
  have h3090 : roundDistance (30 * s) ≤ roundDistance (90 * s) :=
    roundDistance_mono (by linarith)
  cases hp : m.verbal_pre with
  | none =>
      cases ha : m.verbal_alert with
      | none => simp
      | some alert =>
          split_ifs
          · simp only [List.nil_append, List.map_cons, List.map_nil,
              List.chain'_cons, List.chain'_singleton, and_true]
            exact h3090
          · simp
          · simp
          · simp
  | some pre =>
      cases ha : m.verbal_alert with
      | none => simp
      | some alert =>
          split_ifs
          · simp only [List.cons_append, List.nil_append, List.map_cons, List.map_nil,
              List.chain'_cons, List.chain'_singleton, and_true]
            exact ⟨hpre30, h3090⟩
          · simp only [List.cons_append, List.nil_append, List.map_cons, List.map_nil,
              List.chain'_cons, List.chain'_singleton, and_true]
            exact hpre35
          · simp only [List.cons_append, List.nil_append, List.map_cons, List.map_nil,
              List.chain'_cons, List.chain'_singleton, and_true]
            exact hpre20
          · simp

/-- Witness for the amended C4 at a concrete input: the speed hypothesis holds
for a 19000 m leg in 1900 s and the prompt list is ascending. -/
theorem fillVerbalPrompts_sorted_ascending_witness :
    (5/2 : ℚ) ≤ 19000 / max 1 1900
    ∧ List.Chain' (· ≤ ·)
        (((Maneuver.ofKwargs kwargsK4).fillVerbalPrompts 19000 1900 "en").map
          VerbalPrompt.distance) :=
  ⟨by norm_num,
   fillVerbalPrompts_sorted_ascending (Maneuver.ofKwargs kwargsK4) 19000 1900 "en"
     (by norm_num)⟩

/-! ## Narrative state (narrative.py, class Narrative) -/

/-- Embedding of narrative.py class `Narrative` (its state).  The three
distance thresholds set in `__init__` are constants and embedded as the
definitions below. -/
structure Narrative where
  dist : List ℚ
  last_node : ℕ
  maneuver : List (Option Maneuver)
  mode : String
  time : List ℚ
  x : List ℚ
  y : List ℚ
  current_maneuver : Option Maneuver
  voice_engine : VoiceDirection
  navigation_active : Bool
  language : String
deriving DecidableEq, Repr

/-- Embedding of `self.distance_route_too_far = 200.0`. -/
def distanceRouteTooFar : ℚ := 200

/-- Embedding of `self.distance_route_too_far_for_direction = 50.0`. -/
def distanceRouteTooFarForDirection : ℚ := 50

/-- Embedding of `self.distance_route_init_reroute = 100.0`. -/
def distanceRouteInitReroute : ℚ := 100

/-- Embedding of the property `Narrative.ready`: the route arrays are nonempty
and of consistent lengths. -/
def Narrative.ready (s : Narrative) : Bool :=
  (¬ s.x.isEmpty) && s.x.length == s.y.length && s.x.length == s.dist.length
    && s.x.length == s.time.length && s.x.length == s.maneuver.length

/-- Core recursion of `Narrative.set_route` (narrative.py lines 509-534).  The
Python loop walks indices from the end, deleting a point closer than 1 meter
to its (current) successor and otherwise accumulating the distance and the
nominal 120 km/h time; this is exactly a right fold building the retained
points, each with its cumulative distance and time. -/
def routeFold (geo : Geo) : List (ℚ × ℚ) → List ((ℚ × ℚ) × ℚ × ℚ)
  | [] => []
  | [p] => [(p, 0, 0)]
  | p :: q :: rest =>
      match routeFold geo (q :: rest) with
      | [] => [(p, 0, 0)]
      | (r, d0, t0) :: tl =>
          let d := geo.dist p.1 p.2 r.1 r.2
          if d < 1 then (r, d0, t0) :: tl
          else (p, d0 + d, t0 + d/1000/120*3600) :: (r, d0, t0) :: tl

/-- Embedding of `Narrative.set_route`: store the (duplicate-collapsed) route
with its cumulative distance/time arrays, a maneuver table of the same length
full of `None`, and a reset locality hint.  The coordinate arrays are passed
zipped; the Python code requires them to have equal length. -/
def Narrative.setRoute (geo : Geo) (s : Narrative) (x y : List ℚ) : Narrative :=
  let r := routeFold geo (x.zip y)
  { s with x := r.map (fun e => e.1.1), y := r.map (fun e => e.1.2),
           dist := r.map (fun e => e.2.1), time := r.map (fun e => e.2.2),
           maneuver := List.replicate r.length none,
           last_node := 0 }

theorem routeFold_spec (geo : Geo) (l : List (ℚ × ℚ)) :
    List.Chain' (fun a b => a.2.1 > b.2.1) (routeFold geo l)
    ∧ (routeFold geo l ≠ [] → (routeFold geo l).getLast?.map (fun e => e.2.1) = some 0)
    ∧ List.Chain' (fun a b => ¬ geo.dist a.1.1 a.1.2 b.1.1 b.1.2 < 1) (routeFold geo l)
    ∧ (l ≠ [] → routeFold geo l ≠ []) := by
  induction l with
  | nil => simp [routeFold]
  | cons p rest ih =>
      cases rest with
      | nil => simp [routeFold]
      | cons q rest' =>
          obtain ⟨ih1, ih2, ih3, ih4⟩ := ih
          have hne : routeFold geo (q :: rest') ≠ [] := ih4 (by simp)
          cases hres : routeFold geo (q :: rest') with
          | nil => exact absurd hres hne
          | cons hd tl =>
              obtain ⟨r, d0, t0⟩ := hd
              rw [hres] at ih1 ih2 ih3
              have hstep :
                  routeFold geo (p :: q :: rest')
                    = (if geo.dist p.1 p.2 r.1 r.2 < 1 then ((r, d0, t0) :: tl)
                       else (p, d0 + geo.dist p.1 p.2 r.1 r.2,
                             t0 + geo.dist p.1 p.2 r.1 r.2/1000/120*3600)
                            :: (r, d0, t0) :: tl) := by
                rw [routeFold, hres]
              by_cases hd1 : geo.dist p.1 p.2 r.1 r.2 < 1
              · rw [hstep, if_pos hd1]
                exact ⟨ih1, fun _ => ih2 (by simp), ih3, fun _ => by simp⟩
              · rw [hstep, if_neg hd1]
                refine ⟨?_, ?_, ?_, fun _ => by simp⟩
                · rw [List.chain'_cons]
                  refine ⟨?_, ih1⟩
                  have : (1 : ℚ) ≤ geo.dist p.1 p.2 r.1 r.2 := not_lt.mp hd1
                  simp only [gt_iff_lt]
                  linarith
                · intro _
                  rw [List.getLast?_cons_cons]
                  exact ih2 (by simp)
                · rw [List.chain'_cons]
                  exact ⟨hd1, ih3⟩

/-- C8: after `set_route` the cumulative distance array is strictly decreasing,
ends at zero, and every pair of consecutive retained route points is at least
1 meter apart (for the distance function the route was built with). -/
theorem setRoute_dist_invariants (geo : Geo) (s : Narrative) (x y : List ℚ) :
    List.Chain' (· > ·) (Narrative.setRoute geo s x y).dist
    ∧ (Narrative.setRoute geo s x y).dist.getLastD 0 = 0
    ∧ List.Chain' (fun p q => ¬ geo.dist p.1 p.2 q.1 q.2 < 1)
        ((Narrative.setRoute geo s x y).x.zip (Narrative.setRoute geo s x y).y) := by
  obtain ⟨h1, h2, h3, _⟩ := routeFold_spec geo (x.zip y)
  unfold Narrative.setRoute
  refine ⟨?_, ?_, ?_⟩
  · simpa [List.chain'_map] using h1
  · cases hres : routeFold geo (x.zip y) with
    | nil => simp
    | cons hd tl =>
        rw [hres] at h2
        have h2' := h2 (by simp)
        simp only [List.getLastD_eq_getLast?, List.getLast?_map, hres]
        rw [h2']
        rfl
  · have hz : ((routeFold geo (x.zip y)).map (fun e => e.1.1)).zip
        ((routeFold geo (x.zip y)).map (fun e => e.1.2))
        = (routeFold geo (x.zip y)).map (fun e => (e.1.1, e.1.2)) := List.zip_map' _ _ _
    simp only [hz]
    simpa [List.chain'_map] using h3

/-! ## Map matcher (narrative.py `_get_closest_segment_node` and helpers) -/

/-- Modelled from the spec: `poor.polysimp.get_sq_seg_dist` is not under the
narration sources; the spec describes it as the squared point-to-segment
distance in coordinate units, which is the standard clamped-projection
formula. -/
def getSqSegDist (px py x1 y1 x2 y2 : ℚ) : ℚ :=
  let dx := x2 - x1
  let dy := y2 - y1
  if dx = 0 ∧ dy = 0 then (px - x1)^2 + (py - y1)^2
  else
    let t := ((px - x1) * dx + (py - y1) * dy) / (dx^2 + dy^2)
    let cx := if t > 1 then x2 else if t > 0 then x1 + dx * t else x1
    let cy := if t > 1 then y2 else if t > 0 then y1 + dy * t else y1
    (px - cx)^2 + (py - cy)^2

/-- Modelled from the spec: `poor.util.find_closest` is not under the
narration sources; per the spec it returns the index of the route node closest
to the given point (squared planar distance; the first index on ties), raising
on an empty route (modelled as `none`). -/
def findClosest (xs ys : List ℚ) (qx qy : ℚ) : Option ℕ :=
  if xs.isEmpty then none
  else
    let d := fun i => (qx - xs.getD i 0)^2 + (qy - ys.getD i 0)^2
    some ((List.range xs.length).foldl (fun best i => if d i < d best then i else best) 0)

/-- Embedding of the per-segment squared distance of the scan in
`_get_closest_segment_node`: segment `i` goes from point `i` to point `i+1`. -/
def segDistAt (xs ys : List ℚ) (qx qy : ℚ) (i : ℕ) : ℚ :=
  getSqSegDist qx qy (xs.getD i 0) (ys.getD i 0) (xs.getD (i+1) 0) (ys.getD (i+1) 0)

/-- Embedding of `eps1 = 0.00005**2` of `_get_closest_segment_node`. -/
def eps1 : ℚ := (1/20000)^2

/-- Embedding of `eps2 = 0.0002**2` of `_get_closest_segment_node`. -/
def eps2 : ℚ := (1/5000)^2

/-- Embedding of `eps3 = 0.005**2` of `_get_closest_segment_node`. -/
def eps3 : ℚ := (1/200)^2

/-- Embedding of one direction of the scan loop of
`_get_closest_segment_node` (narrative.py lines 159-171): fold the running
minimum over the given segment indices, terminating the direction early once
the minimum is below `eps1`, or below `eps2` while the current segment's
distance exceeds `eps3`. -/
def scanDir (xs ys : List ℚ) (qx qy : ℚ) : List ℕ → ℕ × ℚ → ℕ × ℚ
  | [], acc => acc
  | i :: rest, acc =>
      let d := segDistAt xs ys qx qy i
      let acc' := if d < acc.2 then (i, d) else acc
      if acc'.2 < eps1 then acc'
      else if acc'.2 < eps2 ∧ d > eps3 then acc'
      else scanDir xs ys qx qy rest acc'

/-- Embedding of the scan of `_get_closest_segment_node`: forward from the
locality hint to the last segment, then backward from the hint to the first
segment, starting from minimum 360**2. -/
def closestSegmentCore (xs ys : List ℚ) (qx qy : ℚ) (last : ℕ) : ℕ × ℚ :=
  let ahead := List.range' last (xs.length - 1 - last)
  let behind := (List.range last).reverse
  scanDir xs ys qx qy behind (scanDir xs ys qx qy ahead (0, 360^2))

/-- Embedding of `Narrative._get_closest_segment_node` minus the state update
of `_last_node` (which `closestSegmentCore` provides): after the scan, return
whichever endpoint of the winning segment is closer, `none` modelling the
IndexError when point `min_node + 1` does not exist. -/
def closestSegmentNode (xs ys : List ℚ) (qx qy : ℚ) (last : ℕ) : Option ℕ := do
  let mn := (closestSegmentCore xs ys qx qy last).1
  let xa ← xs.get? mn
  let ya ← ys.get? mn
  let xb ← xs.get? (mn + 1)
  let yb ← ys.get? (mn + 1)
  let dist_a := (qx - xa)^2 + (qy - ya)^2
  let dist_b := (qx - xb)^2 + (qy - yb)^2
  return if dist_a < dist_b then mn else mn + 1

/-- Brute-force matcher as the claim states it: scan all segments tracking the
minimum squared point-to-segment distance, then pick the literally closer
endpoint of the winning segment. -/
def bruteForceNode (xs ys : List ℚ) (qx qy : ℚ) : Option ℕ := do
  let mn := ((List.range (xs.length - 1)).foldl
    (fun acc i =>
      let d := segDistAt xs ys qx qy i
      if d < acc.2 then (i, d) else acc) (0, 360^2)).1
  let xa ← xs.get? mn
  let ya ← ys.get? mn
  let xb ← xs.get? (mn + 1)
  let yb ← ys.get? (mn + 1)
  let dist_a := (qx - xa)^2 + (qy - ya)^2
  let dist_b := (qx - xb)^2 + (qy - yb)^2
  return if dist_a < dist_b then mn else mn + 1

/-! ## Display computation (narrative.py `get_display` and helpers) -/

/-- Modelled from the spec: `poor.util.format_time`, like `formatDistance`
display-only; modelled as the decimal rendering. -/
def formatTime (q : ℚ) : String :=
  toString q

/-- Python `min` over a nonempty list (the empty case is unreachable where
used; it returns the junk value 0 there). -/
def listMin : List ℚ → ℚ
  | [] => 0
  | a :: rest => rest.foldl min a

/-- Python `max` over a nonempty list (the empty case is unreachable where
used; it returns the junk value 0 there). -/
def listMax : List ℚ → ℚ
  | [] => 0
  | a :: rest => rest.foldl max a

/-- Embedding of `Narrative._get_distances_from_route` (lines 205-221).  In
the one-point case Python returns a bare float whose later use raises; that
case is unreachable from `get_display` because `_get_closest_segment_node`
raises first, so it is modelled as a one-element list. -/
def Narrative.getDistancesFromRoute (geo : Geo) (s : Narrative) (qx qy : ℚ)
    (node : ℕ) : List ℚ :=
  if s.x.length = 1 then
    [geo.dist qx qy (s.x.getD node 0) (s.y.getD node 0)]
  else
    (if node > 0 then
      [geo.segDist qx qy (s.x.getD (node-1) 0) (s.y.getD (node-1) 0)
        (s.x.getD node 0) (s.y.getD node 0)]
     else []) ++
    (if node < s.x.length - 1 then
      [geo.segDist qx qy (s.x.getD node 0) (s.y.getD node 0)
        (s.x.getD (node+1) 0) (s.y.getD (node+1) 0)]
     else [])

/-- Embedding of `Narrative._get_display_destination` (lines 303-311); `none`
models the AttributeError when the maneuver table holds `None` at the node and
the straight-line branch dereferences it. -/
def Narrative.getDisplayDestination (geo : Geo) (s : Narrative) (qx qy : ℚ)
    (node : ℕ) (seg_dist : ℚ) : Option (ℚ × ℚ) :=
  let dest_dist := seg_dist + s.dist.getD node 0
  let dest_time := s.time.getD node 0
  if node = s.x.length - 1 ∨ dest_dist < 500 then
    match s.maneuver.getD node none with
    | none => none
    | some m => some (geo.dist qx qy m.x m.y, dest_time)
  else some (dest_dist, dest_time)

/-- Embedding of `Narrative._get_display_maneuver` (lines 313-333); `none`
models the IndexError/AttributeError when the (possibly advanced) node has no
maneuver, or the maneuver has no node. -/
def Narrative.getDisplayManeuver (geo : Geo) (s : Narrative) (qx qy : ℚ)
    (node0 : ℕ) (seg_dists : List ℚ) : Option (ℕ × ℚ × ℚ × String × String × Maneuver) :=
  let node :=
    if seg_dists.length = 2 then
      let s1 := seg_dists.getD 0 0
      let s2 := seg_dists.getD 1 0
      if s2 < s1/2 ∧ s1 > 10 then node0 + 1 else node0
    else node0
  let seg_dist := listMin seg_dists
  match s.maneuver.get? node with
  | none => none
  | some none => none
  | some (some m) =>
      match m.node with
      | none => none
      | some man_node =>
          let man_dist := seg_dist + s.dist.getD node 0 - s.dist.getD man_node 0
          let man_time := s.time.getD node 0 - s.time.getD man_node 0
          let man_dist :=
            if node = man_node ∨ man_dist < 500 then geo.dist qx qy m.x m.y
            else man_dist
          some (man_node, man_dist, man_time, m.icon, m.narrative, m)

/-- Embedding of `Narrative._calculate_direction_ahead`. -/
def Narrative.calculateDirectionAhead (geo : Geo) (s : Narrative) (node : ℕ) : ℚ :=
  geo.bearing (s.x.getD node 0) (s.y.getD node 0) (s.x.getD (node+1) 0) (s.y.getD (node+1) 0)

/-- Embedding of `Narrative._calculate_length_ahead`. -/
def Narrative.calculateLengthAhead (geo : Geo) (s : Narrative) (node : ℕ) : ℚ :=
  geo.dist (s.x.getD node 0) (s.y.getD node 0) (s.x.getD (node+1) 0) (s.y.getD (node+1) 0)

/-- Embedding of Python `statistics.median` on rationals. -/
def median (l : List ℚ) : ℚ :=
  let sorted := l.mergeSort (fun a b => a ≤ b)
  let n := l.length
  if n % 2 = 1 then sorted.getD (n / 2) 0
  else (sorted.getD (n/2 - 1) 0 + sorted.getD (n/2) 0) / 2

/-- Embedding of the bearing-gathering while loop of `_get_direction` (lines
192-198).  The fuel argument only models the loop bound: the loop always stops
once `node + r` reaches the end of the route, so a fuel of `s.x.length` is
never exhausted. -/
def Narrative.directionGather (geo : Geo) (s : Narrative) (node : ℕ) :
    ℕ → ℕ → ℚ → List ℚ → List ℚ
  | 0, _, _, dirs => dirs
  | fuel+1, r, len, dirs =>
      if len < 50 ∧ r ≤ node ∧ node + r < s.x.length - 1 then
        Narrative.directionGather geo s node fuel (r+1)
          (len + Narrative.calculateLengthAhead geo s (node - r)
               + Narrative.calculateLengthAhead geo s (node + r))
          (dirs ++ [Narrative.calculateDirectionAhead geo s (node - r),
                    Narrative.calculateDirectionAhead geo s (node + r)])
      else dirs

/-- Embedding of `Narrative._get_direction` (lines 178-199). -/
def Narrative.getDirection (geo : Geo) (s : Narrative) (qx qy : ℚ) (node0 : ℕ) : ℚ :=
  let node1 :=
    if node0 > 0 then
      let dist := (qx - s.x.getD node0 0)^2 + (qy - s.y.getD node0 0)^2
      let dist_prev := (qx - s.x.getD (node0-1) 0)^2 + (qy - s.y.getD (node0-1) 0)^2
      if dist_prev < dist then node0 - 1 else node0
    else node0
  let node := min (s.x.length - 2) node1
  let length := Narrative.calculateLengthAhead geo s node
  let dirs := Narrative.directionGather geo s node s.x.length 1 length
    [Narrative.calculateDirectionAhead geo s node]
  median dirs

/-- Embedding of the prompt-queue scan of `get_display` (lines 264-272): find
the first prompt (in list order) whose threshold is within the 10 m tolerance
of the maneuver distance, returning its fetched audio and its index; `none`
when no prompt matches (the for-else maintenance case). -/
def promptScan (man_dist : ℚ) (fetch : String → Option String) :
    List VerbalPrompt → ℕ → Option (Option String × ℕ)
  | [], _ => none
  | p :: rest, i =>
      if man_dist < p.distance + 10 then some (fetch p.prompt, i)
      else promptScan man_dist fetch rest (i+1)

/-- Embedding of the prompt-firing step of `get_display` (lines 264-272): the
first prompt within tolerance fires; on a successful fetch the queue is cut to
the prompts before it (dropping the fired prompt and every later one); `none`
when no prompt is within tolerance. -/
def promptStep (queue : List VerbalPrompt) (man_dist : ℚ)
    (fetch : String → Option String) : Option (Option String × List VerbalPrompt) :=
  match promptScan man_dist fetch queue 0 with
  | none => none
  | some (v, i) => some (v, if v.isSome then queue.take i else queue)

/-- Embedding of the body loop of `Narrative._set_current_maneuver` (lines
398-411): request synthesis for the prompts of the maneuver and of up to two
following maneuvers.  The fuel is the literal `range(3)` bound. -/
def Narrative.setCurrentManeuverLoop (s : Narrative) :
    ℕ → ℕ → VoiceDirection → Option VoiceDirection
  | 0, _, eng => some eng
  | fuel+1, node, eng => do
      let time ← s.time.get? node
      let man? ← s.maneuver.get? node
      let man ← man?
      let eng := man.verbal_prompts_before.foldl (fun e p => e.make p.prompt time) eng
      let eng :=
        match man.verbal_post with
        | some vp => if vp ≠ "" then eng.make vp time else eng
        | none => eng
      if s.maneuver.length > node + 1 then do
        let next? ← s.maneuver.get? (node + 1)
        let next ← next?
        let nn ← next.node
        Narrative.setCurrentManeuverLoop s fuel nn eng
      else some eng

/-- Embedding of `Narrative._set_current_maneuver` (lines 388-411): snapshot
the maneuver as the current one (deep copy = value copy) and, when the engine
is active, request synthesis for it and up to two following maneuvers. -/
def Narrative.setCurrentManeuver (s : Narrative) (m : Maneuver) : Option Narrative := do
  let s' := { s with current_maneuver := some m }
  if ¬ s'.voice_engine.engineActive then return s'
  else do
    let node ← m.node
    let eng ← Narrative.setCurrentManeuverLoop s' 3 node s'.voice_engine
    return { s' with voice_engine := eng }

/-- Embedding of the display record returned by `get_display`.  The fields
suppressed when far off route are options. -/
structure Display where
  total_dist : String
  total_time : String
  dest_dist : String
  dest_time : Option String
  man_dist : String
  man_time : Option String
  progress : ℚ
  icon : Option String
  narrative : Option String
  direction : Option ℚ
  reroute : Bool
  voice_to_play : Option String
deriving DecidableEq, Repr

/-- Embedding of the voice-direction block of `get_display` (lines 251-288):
returns the prompt to play and the updated state. -/
def Narrative.voiceBlock (s1 : Narrative) (maneuver : Maneuver) (man_dist_v : ℚ)
    (seg_dist : ℚ) (node : ℕ) : Option (Option String × Narrative) :=
  if s1.navigation_active ∧ s1.voice_engine.engineActive
      ∧ seg_dist < distanceRouteTooFarForDirection then
    match s1.current_maneuver with
    | none => do
        let s2 ← s1.setCurrentManeuver maneuver
        return (none, s2)
    | some cm =>
        if cm.isSame maneuver then
          let drained := s1.voice_engine.updateCache
          let fetch := fun t => (cacheLookup drained.cache t).bind Voice.filename
          match promptStep cm.verbal_prompts_before man_dist_v fetch with
          | some (v, q') =>
              some (v, { s1 with
                current_maneuver := some { cm with verbal_prompts_before := q' },
                voice_engine := drained })
          | none =>
              some (none,
                { s1 with voice_engine := s1.voice_engine.setTime (s1.time.getD node 0) })
        else
          match cm.verbal_post with
          | none => do
              let s2 ← s1.setCurrentManeuver maneuver
              return (none, s2)
          | some post => do
              let nn ← cm.node
              if nn + 1 < s1.maneuver.length then do
                let entry? ← s1.maneuver.get? (nn + 1)
                let entry ← entry?
                if entry.isSame maneuver then
                  let r := s1.voice_engine.get post
                  let s1' := { s1 with voice_engine := r.2 }
                  let s2 ← s1'.setCurrentManeuver maneuver
                  return (r.1, s2)
                else do
                  let s2 ← s1.setCurrentManeuver maneuver
                  return (none, s2)
              else do
                let s2 ← s1.setCurrentManeuver maneuver
                return (none, s2)
  else some (none, s1)

/-- Embedding of `Narrative.get_display` (narrative.py lines 223-301) for car
mode.  The result is `none` when the Python code would raise; `some (none, s)`
models the graceful `return None` when the state is not ready.  The transit
branch (lines 226-227, `_get_display_transit`) is exercised by no claim and is
not modelled; every theorem below fixes `mode = "car"`. -/
def Narrative.getDisplay (geo : Geo) (s : Narrative) (qx qy : ℚ)
    (accuracy : Option ℚ) : Option (Option Display × Narrative) :=
  if ¬ s.ready then some (none, s)
  else if s.mode = "transit" then none
  else do
    let node ← closestSegmentNode s.x s.y qx qy s.last_node
    let s1 := { s with last_node := (closestSegmentCore s.x s.y qx qy s.last_node).1 }
    let seg_dists := Narrative.getDistancesFromRoute geo s1 qx qy node
    let seg_dist := listMin seg_dists
    let dd ← Narrative.getDisplayDestination geo s1 qx qy node seg_dist
    if listMax s1.time = 0 then none
    else do
      let progress := (listMax s1.time - dd.2) / listMax s1.time
      let dm ← Narrative.getDisplayManeuver geo s1 qx qy node seg_dists
      match dm with
      | (_, man_dist_v, man_time_v, icon0, narrative0, maneuver) =>
          let far := seg_dist > distanceRouteTooFar
          let direction : Option ℚ :=
            if seg_dist < distanceRouteTooFarForDirection
            then some (Narrative.getDirection geo s1 qx qy node) else none
          let reroute := seg_dist > distanceRouteInitReroute +
            (match accuracy with
             | none => 40000000
             | some a => if a = 0 then 40000000 else a)
          let vb ← Narrative.voiceBlock s1 maneuver man_dist_v seg_dist node
          return (some
            { total_dist := formatDistance (listMax s1.dist)
              total_time := formatTime (listMax s1.time)
              dest_dist := formatDistance dd.1
              dest_time := if far then none else some (formatTime dd.2)
              man_dist := formatDistance man_dist_v
              man_time := if far then none else some (formatTime man_time_v)
              progress := progress
              icon := if far then none else some icon0
              narrative := if far then none else some narrative0
              direction := direction
              reroute := reroute
              voice_to_play := vb.1 }, vb.2)

/-! ## Concrete states -/

/-- Freshly initialized voice pipeline (`VoiceDirection.__init__`): no engine
selected, empty cache, no worker. -/
def initVoice : VoiceDirection :=
  { engineActive := false, cache := [], queue_tasks := [], queue_results := none,
    workerStarted := false, last_cache_check_time := 0 }

/-- Freshly initialized narrative state (`Narrative.__init__`). -/
def initNarrative : Narrative :=
  { dist := [], last_node := 0, maneuver := [], mode := "car", time := [], x := [],
    y := [], current_maneuver := none, voice_engine := initVoice,
    navigation_active := false, language := "en" }

/-- C5 (code bug): a route of two points less than 1 meter apart collapses to a
single retained point; the state is `ready`, yet `get_display` raises
(IndexError at `self.x[b]` with `b = 1` in `_get_closest_segment_node`, line
175) instead of treating the route as having no forward segment and
suppressing the direction output. -/
theorem getDisplay_singleton_route_raises :
    (Narrative.setRoute taxiGeo initNarrative [0, 0] [0, 1/2]).x = [(0 : ℚ)]
    ∧ (Narrative.setRoute taxiGeo initNarrative [0, 0] [0, 1/2]).ready = true
    ∧ Narrative.getDisplay taxiGeo (Narrative.setRoute taxiGeo initNarrative [0, 0] [0, 1/2])
        5 5 none = none := by
  have hs : Narrative.setRoute taxiGeo initNarrative [0, 0] [0, 1/2]
      = { dist := [0], last_node := 0, maneuver := [none], mode := "car", time := [0],
          x := [0], y := [1/2], current_maneuver := none, voice_engine := initVoice,
          navigation_active := false, language := "en" } := by
    norm_num [Narrative.setRoute, routeFold, taxiGeo, initNarrative, abs_of_nonneg]
  rw [hs]
  refine ⟨rfl, rfl, ?_⟩
  norm_num [Narrative.getDisplay, Narrative.ready, closestSegmentNode, closestSegmentCore,
    scanDir, List.range']

/-! ## Reroute decision (claim about `get_display`) -/

/-- Embedding of the Python expression `accuracy or 40000000` of line 249: the
fallback fires when the accuracy is absent or zero (falsy). -/
def accuracyFallback : Option ℚ → ℚ
  | none => 40000000
  | some a => if a = 0 then 40000000 else a

/-- Lateral distance of a fix from the route as `get_display` computes it: the
minimum segment distance at the matched node. -/
def Narrative.lateralDistance (geo : Geo) (s : Narrative) (qx qy : ℚ) : Option ℚ :=
  (closestSegmentNode s.x s.y qx qy s.last_node).map (fun node =>
    listMin (Narrative.getDistancesFromRoute geo s qx qy node))

/-- C2 (amended): whenever `get_display` returns a display record, its reroute
flag is set iff the lateral distance exceeds the 100 m threshold plus the
accuracy fallback — the supplied accuracy when it is nonzero, and 40000000 m
when no accuracy (or a zero accuracy) is supplied, so that rerouting is never
triggered without an accuracy. -/
theorem getDisplay_reroute (geo : Geo) (s : Narrative) (qx qy : ℚ) (acc : Option ℚ)
    (d : Display) (s' : Narrative)
    (h : Narrative.getDisplay geo s qx qy acc = some (some d, s')) :
    ∃ sd, Narrative.lateralDistance geo s qx qy = some sd
      ∧ d.reroute = decide (sd > distanceRouteInitReroute + accuracyFallback acc) := by
  unfold Narrative.getDisplay at h
  split at h
  · simp at h
  split at h
  · simp at h
  simp only [Option.bind_eq_bind] at h
  rw [Option.bind_eq_some] at h
  obtain ⟨node, hnode, h⟩ := h
  rw [Option.bind_eq_some] at h
  obtain ⟨dd, hdd, h⟩ := h
  split at h
  · simp at h
  rw [Option.bind_eq_some] at h
  obtain ⟨dm, hdm, h⟩ := h
  obtain ⟨mn, mdv, mtv, ic, na, mv⟩ := dm
  rw [Option.bind_eq_some] at h
  obtain ⟨vb, hvb, h⟩ := h
  simp only [pure, Option.some.injEq, Prod.mk.injEq] at h
  refine ⟨listMin (Narrative.getDistancesFromRoute geo s qx qy node), ?_, ?_⟩
  · unfold Narrative.lateralDistance
    rw [hnode]
    rfl
  · rw [← h.1]
    rfl

/-- Maneuver placed at the start of the concrete three-point route. -/
def mDep : Maneuver :=
  { duration := 100, icon := "flag", length := 0, narrative := "depart",
    verbal_alert := some "depart", verbal_pre := some "depart", verbal_post := none,
    verbal_prompts_before := [], node := some 0, x := 0, y := 0 }

/-- Maneuver placed at the end of the concrete three-point route. -/
def mArr : Maneuver :=
  { duration := 0, icon := "flag", length := 200, narrative := "arrive",
    verbal_alert := some "arrive", verbal_pre := some "arrive", verbal_post := none,
    verbal_prompts_before := [], node := some 2, x := 0, y := 200 }

/-- Ready car-mode state on the route (0,0) – (0,100) – (0,200) of the spec's
end-to-end example, with its maneuver table and the 120 km/h nominal times. -/
def narC2 : Narrative :=
  { dist := [200, 100, 0], last_node := 0,
    maneuver := [some mDep, some mArr, some mArr], mode := "car",
    time := [6, 3, 0], x := [0, 0, 0], y := [0, 100, 200],
    current_maneuver := none, voice_engine := initVoice,
    navigation_active := false, language := "en" }

/-- The display record `get_display` produces on `narC2` for the fix (200,100)
with no accuracy: 200 m off route, yet no reroute. -/
def dC2 : Display :=
  { total_dist := formatDistance 200, total_time := formatTime 6,
    dest_dist := formatDistance 300, dest_time := some (formatTime 3),
    man_dist := formatDistance 300, man_time := some (formatTime 3),
    progress := 1/2, icon := some "flag", narrative := some "arrive",
    direction := none, reroute := false, voice_to_play := none }

theorem narC2_node_eval :
    closestSegmentNode narC2.x narC2.y 200 100 narC2.last_node = some 1 := by
  have hd01 : segDistAt narC2.x narC2.y 200 100 0 = 40000 := by
    norm_num [segDistAt, getSqSegDist, narC2]
  have hd11 : segDistAt narC2.x narC2.y 200 100 1 = 40000 := by
    norm_num [segDistAt, getSqSegDist, narC2]
  have hcore : closestSegmentCore narC2.x narC2.y 200 100 narC2.last_node = (0, 40000) := by
    rw [closestSegmentCore]
    have hr : List.range' narC2.last_node (narC2.x.length - 1 - narC2.last_node) = [0, 1] := by
      norm_num [narC2, List.range']
    have hr2 : (List.range narC2.last_node).reverse = [] := by norm_num [narC2]
    rw [hr, hr2]
    norm_num [scanDir, hd01, hd11, eps1, eps2, eps3]
  rw [closestSegmentNode, hcore]
  norm_num [narC2]

theorem narC2_core_eval :
    closestSegmentCore narC2.x narC2.y 200 100 narC2.last_node = (0, 40000) := by
  have hd01 : segDistAt narC2.x narC2.y 200 100 0 = 40000 := by
    norm_num [segDistAt, getSqSegDist, narC2]
  have hd11 : segDistAt narC2.x narC2.y 200 100 1 = 40000 := by
    norm_num [segDistAt, getSqSegDist, narC2]
  rw [closestSegmentCore]
  have hr : List.range' narC2.last_node (narC2.x.length - 1 - narC2.last_node) = [0, 1] := by
    norm_num [narC2, List.range']
  have hr2 : (List.range narC2.last_node).reverse = [] := by norm_num [narC2]
  rw [hr, hr2]
  norm_num [scanDir, hd01, hd11, eps1, eps2, eps3]

theorem narC2_seg_eval :
    Narrative.getDistancesFromRoute taxiGeo narC2 200 100 1 = [200, 200] := by
  norm_num [Narrative.getDistancesFromRoute, taxiGeo, distToInterval, narC2]

theorem narC2_display_eval :
    Narrative.getDisplay taxiGeo narC2 200 100 none = some (some dC2, narC2) := by
  have hdd : Narrative.getDisplayDestination taxiGeo narC2 200 100 1 200 = some (300, 3) := by
    norm_num [Narrative.getDisplayDestination, taxiGeo, narC2, mArr]
  have hdm : Narrative.getDisplayManeuver taxiGeo narC2 200 100 1 [200, 200]
      = some (2, 300, 3, "flag", "arrive", mArr) := by
    norm_num [Narrative.getDisplayManeuver, taxiGeo, listMin, narC2, mArr]
  have hvb : Narrative.voiceBlock narC2 mArr 300 200 1 = some (none, narC2) := by
    norm_num [Narrative.voiceBlock, narC2, initVoice]
  have hs1 : ({ narC2 with last_node := 0 } : Narrative) = narC2 := rfl
  unfold Narrative.getDisplay
  rw [if_neg (by norm_num [Narrative.ready, narC2]),
    if_neg (by rw [show narC2.mode = "car" from rfl]; decide), narC2_node_eval,
    narC2_core_eval]
  simp only [Option.bind_eq_bind, Option.some_bind]
  rw [hs1, narC2_seg_eval]
  have hmin : listMin [(200:ℚ), 200] = 200 := by norm_num [listMin]
  rw [hmin, hdd]
  simp only [Option.bind_eq_bind, Option.some_bind]
  have hmax : listMax narC2.time = 6 := by norm_num [listMax, narC2]
  rw [hmax, if_neg (by norm_num), hdm]
  simp only [Option.bind_eq_bind, Option.some_bind]
  rw [hvb]
  simp only [Option.bind_eq_bind, Option.some_bind]
  have hmaxd : listMax narC2.dist = 200 := by norm_num [listMax, narC2]
  rw [hmaxd]
  norm_num [dC2, distanceRouteTooFar, distanceRouteTooFarForDirection,
    distanceRouteInitReroute]

/-- C2 counterexample: on a ready car-mode route, a fix 200 m off route (which
exceeds the 100 m reroute threshold) with no accuracy supplied yields
`reroute = false`, because the missing accuracy is replaced by the 40000000 m
fallback. -/
theorem getDisplay_reroute_counterexample :
    Narrative.lateralDistance taxiGeo narC2 200 100 = some 200
    ∧ (200 : ℚ) > distanceRouteInitReroute
    ∧ Narrative.getDisplay taxiGeo narC2 200 100 none = some (some dC2, narC2)
    ∧ dC2.reroute = false := by
  refine ⟨?_, by norm_num [distanceRouteInitReroute], narC2_display_eval, rfl⟩
  unfold Narrative.lateralDistance
  rw [narC2_node_eval]
  simp only [Option.map_some']
  rw [narC2_seg_eval]
  norm_num [listMin]

/-- Witness for the amended C2 at a concrete input: `get_display` succeeds on
`narC2` and the reroute flag matches the fallback formula. -/
theorem getDisplay_reroute_witness :
    Narrative.getDisplay taxiGeo narC2 200 100 none = some (some dC2, narC2)
    ∧ ∃ sd, Narrative.lateralDistance taxiGeo narC2 200 100 = some sd
        ∧ dC2.reroute = decide (sd > distanceRouteInitReroute + accuracyFallback none) :=
  ⟨narC2_display_eval,
   getDisplay_reroute taxiGeo narC2 200 100 none dC2 narC2 narC2_display_eval⟩

/-! ## Prompt queue firing (claim about the voice block of `get_display`) -/

theorem promptScan_spec (d : ℚ) (fetch : String → Option String) (p : VerbalPrompt)
    (post : List VerbalPrompt) (hp : d < p.distance + 10) :
    ∀ (pre : List VerbalPrompt) (i : ℕ), (∀ q ∈ pre, ¬ d < q.distance + 10) →
      promptScan d fetch (pre ++ p :: post) i = some (fetch p.prompt, i + pre.length) := by
  intro pre
  induction pre with
  | nil => intro i _; simp [promptScan, hp]
  | cons q rest ih =>
      intro i hpre
      have hq : ¬ d < q.distance + 10 := hpre q (by simp)
      have hrest : ∀ r ∈ rest, ¬ d < r.distance + 10 := fun r hr => hpre r (by simp [hr])
      simp only [List.cons_append, promptScan, if_neg hq, List.append_eq]
      rw [ih (i+1) hrest]
      simp [Nat.add_comm, Nat.add_assoc, Nat.add_left_comm]

/-- C1 (amended): while the resolved maneuver equals the current one, the
prompt scan fires the FIRST prompt in queue order whose threshold is within
the 10 m tolerance (`man_dist < threshold + 10`); on a successful fetch the
fired prompt and every prompt after it in the queue are dropped (with the
ascending queues the code builds, those are exactly the prompts with larger,
already passed, thresholds); when no prompt is within tolerance nothing fires
and the queue is untouched. -/
theorem promptStep_fires_first (d : ℚ) (fetch : String → Option String) :
    (∀ pre p post, (∀ q ∈ pre, ¬ d < q.distance + 10) → d < p.distance + 10 →
      promptStep (pre ++ p :: post) d fetch
        = some (fetch p.prompt, if (fetch p.prompt).isSome then pre
                                else pre ++ p :: post))
    ∧ (∀ l, (∀ q ∈ l, ¬ d < q.distance + 10) → promptStep l d fetch = none) := by
  constructor
  · intro pre p post hpre hp
    unfold promptStep
    rw [promptScan_spec d fetch p post hp pre 0 hpre]
    simp only [Nat.zero_add]
    rcases hf : fetch p.prompt with _ | v
    · simp
    · simp [List.take_left]
  · intro l hl
    unfold promptStep
    have : ∀ (l' : List VerbalPrompt) (i : ℕ), (∀ q ∈ l', ¬ d < q.distance + 10) →
        promptScan d fetch l' i = none := by
      intro l'
      induction l' with
      | nil => intro i _; rfl
      | cons q rest ih =>
          intro i hq
          simp only [promptScan, if_neg (hq q (by simp))]
          exact ih (i+1) (fun r hr => hq r (by simp [hr]))
    rw [this l 0 hl]

/-- Witness for the amended C1 at a concrete input: ascending queue
[20 m, 50 m, 200 m] at 45 m remaining — the 50 m prompt fires (the 20 m one is
not yet within tolerance) and the 200 m prompt is dropped with it. -/
theorem promptStep_fires_first_witness :
    (∀ q ∈ [VerbalPrompt.mk 20 "c"], ¬ (45:ℚ) < q.distance + 10)
    ∧ ((45:ℚ) < (50:ℚ) + 10)
    ∧ promptStep [⟨20, "c"⟩, ⟨50, "b"⟩, ⟨200, "a"⟩] 45 (fun _ => some "f")
        = some (some "f", [⟨20, "c"⟩]) := by
  have h1 : ∀ q ∈ [VerbalPrompt.mk 20 "c"], ¬ (45:ℚ) < q.distance + 10 := by
    intro q hq
    simp only [List.mem_singleton] at hq
    subst hq
    norm_num
  have h2 : (45:ℚ) < (50:ℚ) + 10 := by norm_num
  refine ⟨h1, h2, ?_⟩
  have h3 := (promptStep_fires_first 45 (fun _ => some "f")).1
    [⟨20, "c"⟩] ⟨50, "b"⟩ [⟨200, "a"⟩] h1 h2
  simpa using h3

/-- C1 counterexample: for the queue ordered [200 m, 50 m] as the claim states
it, at 45 m remaining the scan fires the 200 m prompt (45 < 200 + 10 holds at
the first queue position), not the 50 m prompt, and the successful fetch drops
the whole queue including the smaller 50 m threshold. -/
theorem promptStep_descending_counterexample :
    promptStep [⟨200, "a"⟩, ⟨50, "b"⟩] 45
      (fun t => if t = "a" then some "fileA" else some "fileB")
      = some (some "fileA", [])
    ∧ (some "fileA" : Option String) ≠ some "fileB" := by
  constructor
  · norm_num [promptStep, promptScan]
  · simp

/-! ## Hint-based scan versus brute force (map matcher) -/

/-- The running-minimum step both the scan and the brute force use. -/
def minStep (xs ys : List ℚ) (qx qy : ℚ) : ℕ × ℚ → ℕ → ℕ × ℚ :=
  fun acc i => if segDistAt xs ys qx qy i < acc.2 then (i, segDistAt xs ys qx qy i) else acc

theorem eps1_lt_eps2 : eps1 < eps2 := by norm_num [eps1, eps2]

/-- With every candidate distance at least `eps2`, neither early-termination
condition ever fires and the scan is the plain running-minimum fold. -/
theorem scanDir_no_break (xs ys : List ℚ) (qx qy : ℚ) :
    ∀ (l : List ℕ) (acc : ℕ × ℚ), eps2 ≤ acc.2 →
      (∀ j ∈ l, eps2 ≤ segDistAt xs ys qx qy j) →
      scanDir xs ys qx qy l acc = l.foldl (minStep xs ys qx qy) acc
      ∧ eps2 ≤ (l.foldl (minStep xs ys qx qy) acc).2 := by
  intro l
  induction l with
  | nil => intro acc hacc _; exact ⟨rfl, hacc⟩
  | cons i rest ih =>
      intro acc hacc hl
      have hdi : eps2 ≤ segDistAt xs ys qx qy i := hl i (by simp)
      have hrest : ∀ j ∈ rest, eps2 ≤ segDistAt xs ys qx qy j :=
        fun j hj => hl j (by simp [hj])
      have hacc' : eps2 ≤ (minStep xs ys qx qy acc i).2 := by
        unfold minStep
        split
        · exact hdi
        · exact hacc
      have hnb1 : ¬ (minStep xs ys qx qy acc i).2 < eps1 := by
        intro hx
        exact absurd (lt_of_lt_of_le eps1_lt_eps2 hacc') (not_lt.mpr (le_of_lt hx))
      have hnb2 : ¬ (minStep xs ys qx qy acc i).2 < eps2 := not_lt.mpr hacc'
      have hstep : scanDir xs ys qx qy (i :: rest) acc
          = scanDir xs ys qx qy rest (minStep xs ys qx qy acc i) := by
        rw [scanDir]
        simp only [minStep] at hnb1 hnb2 ⊢
        rw [if_neg hnb1, if_neg (by intro hx; exact hnb2 hx.1)]
      rw [hstep, List.foldl_cons]
      exact ih (minStep xs ys qx qy acc i) hacc' hrest

/-- Once the fold holds the unique minimum, no later candidate replaces it. -/
theorem foldl_min_keep (xs ys : List ℚ) (qx qy : ℚ) (n : ℕ) (v : ℚ) :
    ∀ (l : List ℕ), (∀ j ∈ l, ¬ segDistAt xs ys qx qy j < v) →
      l.foldl (minStep xs ys qx qy) (n, v) = (n, v) := by
  intro l
  induction l with
  | nil => intro _; rfl
  | cons i rest ih =>
      intro hl
      rw [List.foldl_cons]
      have : minStep xs ys qx qy (n, v) i = (n, v) := by
        unfold minStep
        rw [if_neg (hl i (by simp))]
      rw [this]
      exact ih (fun j hj => hl j (by simp [hj]))

/-- The running-minimum fold finds the unique strict minimizer contained in
the candidate list, whatever order the list enumerates candidates in. -/
theorem foldl_min_finds (xs ys : List ℚ) (qx qy : ℚ) (istar : ℕ) :
    ∀ (l : List ℕ) (acc : ℕ × ℚ), istar ∈ l →
      segDistAt xs ys qx qy istar < acc.2 →
      (∀ j ∈ l, j ≠ istar → segDistAt xs ys qx qy istar < segDistAt xs ys qx qy j) →
      l.foldl (minStep xs ys qx qy) acc = (istar, segDistAt xs ys qx qy istar) := by
  intro l
  induction l with
  | nil => intro acc h; simp at h
  | cons i rest ih =>
      intro acc hmem hlt huniq
      rw [List.foldl_cons]
      by_cases hi : i = istar
      · subst hi
        have hstep : minStep xs ys qx qy acc i = (i, segDistAt xs ys qx qy i) := by
          unfold minStep
          rw [if_pos hlt]
        rw [hstep]
        apply foldl_min_keep
        intro j hj
        by_cases hji : j = i
        · subst hji; exact lt_irrefl _
        · exact not_lt.mpr (le_of_lt (huniq j (by simp [hj]) hji))
      · have hmem' : istar ∈ rest := by
          rcases List.mem_cons.mp hmem with h | h
          · exact absurd h.symm hi
          · exact h
        have hlt' : segDistAt xs ys qx qy istar < (minStep xs ys qx qy acc i).2 := by
          unfold minStep
          split
          · exact huniq i (by simp) hi
          · exact hlt
        exact ih (minStep xs ys qx qy acc i) hmem' hlt'
          (fun j hj hne => huniq j (by simp [hj]) hne)

/-- C3 (amended): the hint-based matcher with epsilon early termination agrees
with the brute-force all-segments scan provided the minimum squared segment
distance is at least `eps2` (so no early-termination condition can fire), is
below the 360**2 sentinel, and is achieved by a unique segment. -/
theorem closestSegmentNode_eq_bruteForce (xs ys : List ℚ) (qx qy : ℚ)
    (hint istar : ℕ)
    (hhint : hint < xs.length)
    (histar : istar < xs.length - 1)
    (hmin : eps2 ≤ segDistAt xs ys qx qy istar)
    (hsent : segDistAt xs ys qx qy istar < 360^2)
    (huniq : ∀ j < xs.length - 1, j ≠ istar →
      segDistAt xs ys qx qy istar < segDistAt xs ys qx qy j) :
    closestSegmentNode xs ys qx qy hint = bruteForceNode xs ys qx qy := by
  have hall : ∀ j < xs.length - 1, eps2 ≤ segDistAt xs ys qx qy j := by
    intro j hj
    by_cases hji : j = istar
    · subst hji; exact hmin
    · exact le_of_lt (lt_of_le_of_lt hmin (huniq j hj hji))
  have hahead_mem : ∀ j ∈ List.range' hint (xs.length - 1 - hint), j < xs.length - 1 := by
    intro j hj
    rw [List.mem_range'_1] at hj
    omega
  have hbehind_mem : ∀ j ∈ (List.range hint).reverse, j < xs.length - 1 := by
    intro j hj
    rw [List.mem_reverse, List.mem_range] at hj
    omega
  -- the scan equals the fold over ahead ++ behind
  have hcore : closestSegmentCore xs ys qx qy hint
      = ((List.range' hint (xs.length - 1 - hint)) ++ (List.range hint).reverse).foldl
          (minStep xs ys qx qy) (0, 360^2) := by
    simp only [closestSegmentCore]
    have he2 : eps2 ≤ ((0 : ℕ), (360:ℚ)^2).2 := by norm_num [eps2]
    obtain ⟨ha, ha2⟩ := scanDir_no_break xs ys qx qy
      (List.range' hint (xs.length - 1 - hint)) (0, 360^2) he2
      (fun j hj => hall j (hahead_mem j hj))
    rw [ha]
    obtain ⟨hb, _⟩ := scanDir_no_break xs ys qx qy ((List.range hint).reverse)
      ((List.range' hint (xs.length - 1 - hint)).foldl (minStep xs ys qx qy) (0, 360^2))
      ha2 (fun j hj => hall j (hbehind_mem j hj))
    rw [hb, List.foldl_append]
  have hmem : istar ∈ (List.range' hint (xs.length - 1 - hint)) ++ (List.range hint).reverse := by
    rw [List.mem_append]
    by_cases hge : hint ≤ istar
    · left
      rw [List.mem_range'_1]
      omega
    · right
      rw [List.mem_reverse, List.mem_range]
      omega
  have hfold : ((List.range' hint (xs.length - 1 - hint)) ++ (List.range hint).reverse).foldl
      (minStep xs ys qx qy) (0, 360^2) = (istar, segDistAt xs ys qx qy istar) := by
    apply foldl_min_finds
    · exact hmem
    · exact hsent
    · intro j hj hne
      rcases List.mem_append.mp hj with h | h
      · exact huniq j (hahead_mem j h) hne
      · exact huniq j (hbehind_mem j h) hne
  have hbrute : (List.range (xs.length - 1)).foldl (minStep xs ys qx qy) (0, 360^2)
      = (istar, segDistAt xs ys qx qy istar) := by
    apply foldl_min_finds
    · rw [List.mem_range]; exact histar
    · exact hsent
    · intro j hj hne
      rw [List.mem_range] at hj
      exact huniq j hj hne
  unfold closestSegmentNode bruteForceNode
  rw [hcore, hfold]
  have : (List.range (xs.length - 1)).foldl
      (fun acc i =>
        let d := segDistAt xs ys qx qy i
        if d < acc.2 then (i, d) else acc) ((0 : ℕ), (360:ℚ)^2)
      = (istar, segDistAt xs ys qx qy istar) := hbrute
  rw [this]

/-- Polyline of the early-termination counterexample: after two segments near
the start, the route swings away and comes back through the query point. -/
def X5 : List ℚ := [0, 1, 5, 2/5, 3/5]

/-- See `X5`. -/
def Y5 : List ℚ := [0, 0, 5, 1/10000, 1/10000]

/-- C3 counterexample: for the query point (9/20, 1/10000) and hint 0 on the
polyline `X5`/`Y5`, segment 0 is within `eps2` of the query, segment 1
diverges beyond `eps3`, so the scan terminates early and returns node 0 —
while the brute-force scan finds segment 3, which passes exactly through the
query point, and returns node 3. -/
theorem closestSegmentNode_ne_bruteForce :
    closestSegmentNode X5 Y5 (9/20) (1/10000) 0 = some 0
    ∧ bruteForceNode X5 Y5 (9/20) (1/10000) = some 3
    ∧ (some 0 : Option ℕ) ≠ some 3 := by
  refine ⟨?_, ?_, by simp⟩
  · norm_num [closestSegmentNode, closestSegmentCore, scanDir, segDistAt, getSqSegDist,
      X5, Y5, List.range', eps1, eps2, eps3]
  · have hr : List.range (X5.length - 1) = [0,1,2,3] := by rfl
    rw [bruteForceNode, hr]
    norm_num [segDistAt, getSqSegDist, X5, Y5]

/-- Witness for the amended C3 at a concrete input: a three-point polyline, a
query 7 units off segment 0, hint 1 — the hypotheses hold and both matchers
return the same node. -/
theorem closestSegmentNode_eq_bruteForce_witness :
    ((1:ℕ) < ([0, 10, 20] : List ℚ).length
      ∧ (0:ℕ) < ([0, 10, 20] : List ℚ).length - 1
      ∧ eps2 ≤ segDistAt [0, 10, 20] [0, 0, 0] 5 7 0
      ∧ segDistAt [0, 10, 20] [0, 0, 0] 5 7 0 < 360^2
      ∧ (∀ j < ([0, 10, 20] : List ℚ).length - 1, j ≠ 0 →
          segDistAt [0, 10, 20] [0, 0, 0] 5 7 0 < segDistAt [0, 10, 20] [0, 0, 0] 5 7 j))
    ∧ closestSegmentNode [0, 10, 20] [0, 0, 0] 5 7 1 = bruteForceNode [0, 10, 20] [0, 0, 0] 5 7 := by
  have h1 : (1:ℕ) < ([0, 10, 20] : List ℚ).length := by norm_num
  have h2 : (0:ℕ) < ([0, 10, 20] : List ℚ).length - 1 := by norm_num
  have h3 : eps2 ≤ segDistAt [0, 10, 20] [0, 0, 0] 5 7 0 := by
    norm_num [segDistAt, getSqSegDist, eps2]
  have h4 : segDistAt [0, 10, 20] [0, 0, 0] 5 7 0 < 360^2 := by
    norm_num [segDistAt, getSqSegDist]
  have h5 : ∀ j < ([0, 10, 20] : List ℚ).length - 1, j ≠ 0 →
      segDistAt [0, 10, 20] [0, 0, 0] 5 7 0 < segDistAt [0, 10, 20] [0, 0, 0] 5 7 j := by
    intro j hj hne
    have hj2 : j < 2 := by simpa using hj
    interval_cases j
    · exact absurd rfl hne
    · norm_num [segDistAt, getSqSegDist]
  exact ⟨⟨h1, h2, h3, h4, h5⟩,
    closestSegmentNode_eq_bruteForce [0, 10, 20] [0, 0, 0] 5 7 1 0 h1 h2 h3 h4 h5⟩

/-! ## Maneuver assignment (narrative.py `set_maneuvers`) -/

/-- Embedding of the descending time-filling loop of `set_maneuvers` (lines
464-466): write `time[j] = time[j+1] + (dist[j] - dist[j+1]) / speed` for `j`
from `node + count - 1` down to `node`. -/
def timeLegFill (dist : List ℚ) (speed : ℚ) (node : ℕ) : ℕ → List ℚ → List ℚ
  | 0, t => t
  | c+1, t =>
      let j := node + c
      let t' := t.set j (t.getD (j+1) 0 + (dist.getD j 0 - dist.getD (j+1) 0) / speed)
      timeLegFill dist speed node c t'

/-- Embedding of the first loop of `set_maneuvers` (lines 450-467), which the
Python code runs over `reversed(range(len(maneuvers)))`; the caller passes the
reversed descriptor list.  Each step skips passive descriptors, matches the
descriptor to its closest route node, writes the maneuver over that node and
every preceding one, and (once a previous maneuver exists) recomputes the
per-node times of the leg from the node to the previous maneuver's node.
`none` models the exceptions: a match on an empty route, an out-of-range node
write (IndexError), or a zero leg speed with a nonempty leg
(ZeroDivisionError). -/
def phase1 (x y dist : List ℚ) :
    List ManeuverKwargs → List (Option Maneuver) → List ℚ → Option (Maneuver × ℕ) →
    Option (List (Option Maneuver) × List ℚ × Option (Maneuver × ℕ))
  | [], arr, time, prev => some (arr, time, prev)
  | k :: rest, arr, time, prev =>
      if k.passive then phase1 x y dist rest arr time prev
      else
        match findClosest x y k.x k.y with
        | none => none
        | some node =>
            if node < arr.length ∧ node < dist.length ∧ node < time.length then
              let len_ : ℚ :=
                match prev with
                | some (_, pn) => dist.getD node 0 - dist.getD pn 0
                | none => 0
              let m := { Maneuver.ofKwargs k with node := some node, length := len_ }
              let arr' := List.replicate (node+1) (some m) ++ arr.drop (node+1)
              match prev with
              | some (_, pn) =>
                  let speed := len_ / max 1 k.duration
                  if node < pn ∧ speed = 0 then none
                  else phase1 x y dist rest arr'
                    (timeLegFill dist speed node (pn - node) time) (some (m, node))
              | none => phase1 x y dist rest arr' time (some (m, node))
            else none

/-- The leg length and duration read by one iteration of the prompt-filling
loop (narrative.py lines 476-484): `dist[prev_node] - dist[node]` and
`time[prev_node] - time[node]` when past the first node, zero otherwise;
`none` models an IndexError. -/
def legFills (dist time : List ℚ) (node prev_node : ℕ) : Option (ℚ × ℚ) :=
  if node > 1 then do
    let dp ← dist.get? prev_node
    let dn ← dist.get? node
    let tp ← time.get? prev_node
    let tn ← time.get? node
    some (dp - dn, tp - tn)
  else some ((0 : ℚ), (0 : ℚ))

/-- Embedding of the prompt-filling loop of `set_maneuvers` (lines 469-490):
walk the maneuver table from node 0 following `maneuver[node+1].node`, filling
each visited maneuver's verbal prompts from the leg behind it.  Python mutates
the maneuver object in place, which updates every table cell holding that
object; in the table, cells are value-equal exactly when they hold the same
object, so this is a value-based replacement.  The fuel models the loop bound:
on the tables the code builds the visited node strictly increases, so
`length + 1` fuel is never exhausted; exhaustion models the infinite loop
Python would enter on a malformed table. -/
def fillLoop (dist time : List ℚ) (language : String) :
    ℕ → ℕ → ℕ → List (Option Maneuver) → Option (List (Option Maneuver))
  | 0, _, _, _ => none
  | fuel+1, node, prev_node, arr => do
      let m? ← arr.get? node
      let m ← m?
      let fills ← legFills dist time node prev_node
      let m' := { m with verbal_prompts_before := m.fillVerbalPrompts fills.1 fills.2 language }
      let arr' := arr.map (fun c => if c = some m then some m' else c)
      if node + 1 < arr'.length then do
        let next? ← arr'.get? (node + 1)
        let next ← next?
        let nn ← next.node
        fillLoop dist time language fuel nn node arr'
      else some arr'

/-- Embedding of `Narrative.set_maneuvers` (narrative.py lines 438-490). -/
def Narrative.setManeuvers (s : Narrative) (input : List ManeuverKwargs) :
    Option Narrative := do
  let s0 := { s with current_maneuver := none, voice_engine := s.voice_engine.clean }
  let p1 ← phase1 s0.x s0.y s0.dist input.reverse s0.maneuver s0.time none
  let arr' ← fillLoop s0.dist p1.2.1 s0.language (p1.1.length + 1) 0 0 p1.1
  return { s0 with maneuver := arr', time := p1.2.1 }

/-! ## Idempotence of `set_maneuvers` -/

/-- The route nodes matched, in processing order, by the non-passive maneuver
descriptors of a list. -/
def matchedNodes (x y : List ℚ) (ks : List ManeuverKwargs) : List ℕ :=
  ks.filterMap (fun k => if k.passive then none else findClosest x y k.x k.y)

/-! Lemmas for the idempotence analysis of `set_maneuvers`: the time-filling
loop writes only the window `[node, node + count)` of the time array, and the
written values depend on the input array only through the cell at the top of
the window. -/

theorem timeLegFill_length (dist : List ℚ) (s : ℚ) (node : ℕ) :
    ∀ (count : ℕ) (t : List ℚ), (timeLegFill dist s node count t).length = t.length := by
  intro count
  induction count with
  | zero => intro t; rfl
  | succ c ih =>
      intro t
      rw [timeLegFill]
      exact (ih _).trans (List.length_set ..)

theorem timeLegFill_getD_untouched (dist : List ℚ) (s : ℚ) (node : ℕ) :
    ∀ (count : ℕ) (t : List ℚ) (j : ℕ), (j < node ∨ node + count ≤ j) →
      (timeLegFill dist s node count t).getD j 0 = t.getD j 0 := by
  intro count
  induction count with
  | zero => intro t j _; rfl
  | succ c ih =>
      intro t j hj
      rw [timeLegFill]
      have hne : node + c ≠ j := by omega
      rw [ih _ j (by omega)]
      rw [List.getD_eq_getElem?_getD, List.getElem?_set_ne hne, ← List.getD_eq_getElem?_getD]

theorem timeLegFill_getD_window (dist : List ℚ) (s : ℚ) (node : ℕ) :
    ∀ (count : ℕ) (t t' : List ℚ), t.length = t'.length → node + count ≤ t.length →
      t.getD (node + count) 0 = t'.getD (node + count) 0 →
      ∀ j, node ≤ j → j < node + count →
        (timeLegFill dist s node count t).getD j 0
          = (timeLegFill dist s node count t').getD j 0 := by
  intro count
  induction count with
  | zero => intro t t' _ _ _ j h1 h2; omega
  | succ c ih =>
      intro t t' hlen hle htop j h1 h2
      rw [timeLegFill]
      rw [show timeLegFill dist s node (c+1) t' = _ from by rw [timeLegFill]]
      have hcl : node + c < t.length := by omega
      have hcl' : node + c < t'.length := by omega
      have hval : t.getD (node + c + 1) 0 + (dist.getD (node + c) 0 - dist.getD (node + c + 1) 0) / s
          = t'.getD (node + c + 1) 0 + (dist.getD (node + c) 0 - dist.getD (node + c + 1) 0) / s := by
        rw [show node + c + 1 = node + (c+1) from rfl, htop]
      have hsetT : ∀ v : ℚ, (t.set (node+c) v).getD (node+c) 0 = v := fun v => by
        rw [List.getD_eq_getElem?_getD, List.getElem?_set_self hcl]; rfl
      have hsetT' : ∀ v : ℚ, (t'.set (node+c) v).getD (node+c) 0 = v := fun v => by
        rw [List.getD_eq_getElem?_getD, List.getElem?_set_self hcl']; rfl
      rcases Nat.lt_or_ge j (node + c) with hj | hj
      · refine ih _ _ (by simp [hlen]) (by rw [List.length_set]; omega) ?_ j h1 hj
        rw [hsetT, hsetT', hval]
      · have hjeq : j = node + c := by omega
        subst hjeq
        rw [timeLegFill_getD_untouched dist s node c _ _ (Or.inr le_rfl),
          timeLegFill_getD_untouched dist s node c _ _ (Or.inr le_rfl)]
        rw [hsetT, hsetT', hval]

theorem list_eq_of_getD (t t' : List ℚ) (hlen : t.length = t'.length)
    (h : ∀ i, i < t.length → t.getD i 0 = t'.getD i 0) : t = t' := by
  refine List.ext_getElem hlen (fun i h1 h2 => ?_)
  have := h i h1
  rwa [List.getD_eq_getElem t 0 h1, List.getD_eq_getElem t' 0 h2] at this

theorem phase1_step_passive (x y dist : List ℚ) (k : ManeuverKwargs)
    (rest : List ManeuverKwargs) (arr : List (Option Maneuver)) (time : List ℚ)
    (prev : Option (Maneuver × ℕ))
    (hpass : k.passive = true) :
    phase1 x y dist (k :: rest) arr time prev = phase1 x y dist rest arr time prev := by
  rw [phase1, if_pos hpass]

theorem phase1_step_none (x y dist : List ℚ) (k : ManeuverKwargs)
    (rest : List ManeuverKwargs) (arr arr' : List (Option Maneuver)) (time : List ℚ)
    (m : Maneuver) (node : ℕ)
    (hpass : k.passive = false)
    (hfc : findClosest x y k.x k.y = some node)
    (hguard : node < arr.length ∧ node < dist.length ∧ node < time.length)
    (hm : { Maneuver.ofKwargs k with node := some node, length := (0:ℚ) } = m)
    (harr : List.replicate (node+1) (some m) ++ arr.drop (node+1) = arr') :
    phase1 x y dist (k :: rest) arr time none
      = phase1 x y dist rest arr' time (some (m, node)) := by
  rw [phase1, if_neg (by simp [hpass]), hfc]
  simp only [if_pos hguard]
  rw [hm, harr]

theorem phase1_step_some (x y dist : List ℚ) (k : ManeuverKwargs)
    (rest : List ManeuverKwargs) (arr arr' : List (Option Maneuver)) (time time' : List ℚ)
    (pm m : Maneuver) (pn node : ℕ) (speed : ℚ)
    (hpass : k.passive = false)
    (hfc : findClosest x y k.x k.y = some node)
    (hguard : node < arr.length ∧ node < dist.length ∧ node < time.length)
    (hm : { Maneuver.ofKwargs k with node := some node, length := dist.getD node 0 - dist.getD pn 0 } = m)
    (hspd : (dist.getD node 0 - dist.getD pn 0) / max 1 k.duration = speed)
    (hnz : ¬(node < pn ∧ speed = 0))
    (harr : List.replicate (node+1) (some m) ++ arr.drop (node+1) = arr')
    (htime : timeLegFill dist speed node (pn - node) time = time') :
    phase1 x y dist (k :: rest) arr time (some (pm, pn))
      = phase1 x y dist rest arr' time' (some (m, node)) := by
  rw [phase1, if_neg (by simp [hpass]), hfc]
  simp only [if_pos hguard]
  rw [hm, hspd, if_neg hnz, harr, htime]

theorem phase1_done (x y dist : List ℚ) (arr : List (Option Maneuver)) (time : List ℚ)
    (prev : Option (Maneuver × ℕ)) :
    phase1 x y dist [] arr time prev = some (arr, time, prev) := by
  rw [phase1]

theorem phase1_fail_of_guard (x y dist : List ℚ) (k : ManeuverKwargs)
    (rest : List ManeuverKwargs) (arr : List (Option Maneuver)) (time : List ℚ)
    (prev : Option (Maneuver × ℕ)) (node : ℕ)
    (hpass : k.passive = false)
    (hfc : findClosest x y k.x k.y = some node)
    (hguard : ¬(node < arr.length ∧ node < dist.length ∧ node < time.length)) :
    phase1 x y dist (k :: rest) arr time prev = none := by
  rw [phase1, if_neg (by simp [hpass]), hfc]
  simp only [if_neg hguard]

theorem phase1_fail_of_speed (x y dist : List ℚ) (k : ManeuverKwargs)
    (rest : List ManeuverKwargs) (arr : List (Option Maneuver)) (time : List ℚ)
    (pm : Maneuver) (pn node : ℕ)
    (hpass : k.passive = false)
    (hfc : findClosest x y k.x k.y = some node)
    (hguard : node < arr.length ∧ node < dist.length ∧ node < time.length)
    (hz : node < pn ∧ (dist.getD node 0 - dist.getD pn 0) / max 1 k.duration = 0) :
    phase1 x y dist (k :: rest) arr time (some (pm, pn)) = none := by
  rw [phase1, if_neg (by simp [hpass]), hfc]
  simp only [if_pos hguard]
  rw [if_pos hz]

theorem phase1_fail_of_nomatch (x y dist : List ℚ) (k : ManeuverKwargs)
    (rest : List ManeuverKwargs) (arr : List (Option Maneuver)) (time : List ℚ)
    (prev : Option (Maneuver × ℕ))
    (hpass : k.passive = false)
    (hfc : findClosest x y k.x k.y = none) :
    phase1 x y dist (k :: rest) arr time prev = none := by
  rw [phase1, if_neg (by simp [hpass]), hfc]

/-- Resuming the maneuver loop with the final time array in place of the
current one changes nothing, provided the remaining matched nodes strictly
decrease below the previous node: the loop never rewrites a cell at or above
the previous node, so every leg is refilled from an unchanged upstream cell
with identical values. -/
theorem phase1_resume (x y dist : List ℚ) (rest : List ManeuverKwargs) :
    ∀ (arr A : List (Option Maneuver)) (t T : List ℚ)
      (P : Option (Maneuver × ℕ)) (pm : Maneuver) (pn : ℕ),
      phase1 x y dist rest arr t (some (pm, pn)) = some (A, T, P) →
      List.Chain' (fun a b => b < a) (pn :: matchedNodes x y rest) →
      pn < t.length →
      T.length = t.length ∧ A.length = arr.length ∧
      (∀ i, pn ≤ i → T.getD i 0 = t.getD i 0) ∧
      phase1 x y dist rest arr T (some (pm, pn)) = some (A, T, P) := by
  induction rest with
  | nil =>
      intro arr A t T P pm pn hrun hchain hlt
      rw [phase1_done] at hrun
      obtain ⟨rfl, rfl, rfl⟩ : arr = A ∧ t = T ∧ (some (pm, pn) : Option (Maneuver × ℕ)) = P := by
        simpa [Prod.ext_iff] using hrun
      exact ⟨rfl, rfl, fun i _ => rfl, phase1_done ..⟩
  | cons k rest' ih =>
      intro arr A t T P pm pn hrun hchain hlt
      cases hp : k.passive with
      | true =>
          rw [phase1_step_passive x y dist k rest' arr t _ hp] at hrun
          have hmn : matchedNodes x y (k :: rest') = matchedNodes x y rest' := by
            simp [matchedNodes, List.filterMap_cons, hp]
          rw [hmn] at hchain
          obtain ⟨h1, h2, h3, h4⟩ := ih arr A t T P pm pn hrun hchain hlt
          exact ⟨h1, h2, h3, by rw [phase1_step_passive x y dist k rest' arr T _ hp]; exact h4⟩
      | false =>
          cases hfc : findClosest x y k.x k.y with
          | none =>
              rw [phase1_fail_of_nomatch x y dist k rest' arr t _ hp hfc] at hrun
              exact absurd hrun (by simp)
          | some n =>
              have hmn : matchedNodes x y (k :: rest') = n :: matchedNodes x y rest' := by
                simp [matchedNodes, List.filterMap_cons, hp, hfc]
              rw [hmn, List.chain'_cons] at hchain
              obtain ⟨hnpn, hchain'⟩ := hchain
              by_cases hg : n < arr.length ∧ n < dist.length ∧ n < t.length
              · by_cases hz : n < pn ∧ (dist.getD n 0 - dist.getD pn 0) / max 1 k.duration = 0
                · rw [phase1_fail_of_speed x y dist k rest' arr t pm pn n hp hfc hg hz] at hrun
                  exact absurd hrun (by simp)
                · rw [phase1_step_some x y dist k rest' arr _ t _ pm _ pn n _
                    hp hfc hg rfl rfl hz rfl rfl] at hrun
                  have hnpn' : n + (pn - n) = pn := by omega
                  obtain ⟨ihT, ihA, ihge, ihsim⟩ :=
                    ih _ A _ T P _ n hrun hchain'
                      (by rw [timeLegFill_length]; exact hg.2.2)
                  have hT : T.length = t.length := ihT.trans (timeLegFill_length ..)
                  have hA : A.length = arr.length := by
                    rw [ihA]
                    simp only [List.length_append, List.length_replicate, List.length_drop]
                    omega
                  have hge : ∀ i, pn ≤ i → T.getD i 0 = t.getD i 0 := by
                    intro i hi
                    exact (ihge i (by omega)).trans
                      (timeLegFill_getD_untouched dist _ n (pn - n) t i (Or.inr (by omega)))
                  refine ⟨hT, hA, hge, ?_⟩
                  have hTT : timeLegFill dist ((dist.getD n 0 - dist.getD pn 0) / max 1 k.duration)
                      n (pn - n) T = T := by
                    apply list_eq_of_getD
                    · rw [timeLegFill_length]
                    · intro i hi
                      by_cases hwin : n ≤ i ∧ i < n + (pn - n)
                      · have h1 := timeLegFill_getD_window dist
                          ((dist.getD n 0 - dist.getD pn 0) / max 1 k.duration) n (pn - n)
                          T t hT (by rw [hT]; omega)
                          (by rw [hnpn']; exact hge pn le_rfl) i hwin.1 hwin.2
                        exact h1.trans ((ihge i hwin.1).symm)
                      · exact timeLegFill_getD_untouched dist _ n (pn - n) T i (by omega)
                  rw [phase1_step_some x y dist k rest' arr _ T _ pm _ pn n _
                    hp hfc ⟨hg.1, hg.2.1, by rw [hT]; exact hg.2.2⟩ rfl rfl hz rfl hTT]
                  exact ihsim
              · rw [phase1_fail_of_guard x y dist k rest' arr t _ n hp hfc hg] at hrun
                exact absurd hrun (by simp)

/-- When the first matched node is the last route node, the first maneuver
write covers the whole table, so rerunning the maneuver loop on ANY equally
long table with the final time array reproduces the original run exactly. -/
theorem phase1_restart (x y dist : List ℚ) (ks : List ManeuverKwargs) :
    ∀ (arr A : List (Option Maneuver)) (t T : List ℚ)
      (P : Option (Maneuver × ℕ)),
      phase1 x y dist ks arr t none = some (A, T, P) →
      List.Chain' (fun a b => b < a) (matchedNodes x y ks) →
      (matchedNodes x y ks).head? = some (arr.length - 1) →
      arr ≠ [] →
      T.length = t.length ∧ A.length = arr.length ∧
      ∀ arr₂ : List (Option Maneuver), arr₂.length = arr.length →
        phase1 x y dist ks arr₂ T none = some (A, T, P) := by
  induction ks with
  | nil =>
      intro arr A t T P hrun hchain hfirst hne
      simp [matchedNodes] at hfirst
  | cons k ks' ih =>
      intro arr A t T P hrun hchain hfirst hne
      cases hp : k.passive with
      | true =>
          rw [phase1_step_passive x y dist k ks' arr t _ hp] at hrun
          have hmn : matchedNodes x y (k :: ks') = matchedNodes x y ks' := by
            simp [matchedNodes, List.filterMap_cons, hp]
          rw [hmn] at hchain hfirst
          obtain ⟨h1, h2, h3⟩ := ih arr A t T P hrun hchain hfirst hne
          refine ⟨h1, h2, fun arr₂ hlen₂ => ?_⟩
          rw [phase1_step_passive x y dist k ks' arr₂ T _ hp]
          exact h3 arr₂ hlen₂
      | false =>
          cases hfc : findClosest x y k.x k.y with
          | none =>
              rw [phase1_fail_of_nomatch x y dist k ks' arr t _ hp hfc] at hrun
              exact absurd hrun (by simp)
          | some n =>
              have hmn : matchedNodes x y (k :: ks') = n :: matchedNodes x y ks' := by
                simp [matchedNodes, List.filterMap_cons, hp, hfc]
              rw [hmn] at hchain hfirst
              have hn : n = arr.length - 1 := by simpa using hfirst
              have hlen1 : 1 ≤ arr.length := by
                cases arr with
                | nil => exact absurd rfl hne
                | cons a l => simp
              by_cases hg : n < arr.length ∧ n < dist.length ∧ n < t.length
              · rw [phase1_step_none x y dist k ks' arr _ t _ n hp hfc hg rfl rfl] at hrun
                rw [List.chain'_cons'] at hchain
                obtain ⟨ihT, ihA, ihge, ihsim⟩ :=
                  phase1_resume x y dist ks' _ A t T P _ n hrun
                    (List.chain'_cons'.mpr hchain) hg.2.2
                have harrlen : (List.replicate (n+1)
                      (some { Maneuver.ofKwargs k with node := some n, length := (0:ℚ) })
                    ++ arr.drop (n+1)).length = arr.length := by
                  simp only [List.length_append, List.length_replicate, List.length_drop]
                  omega
                refine ⟨ihT, ihA.trans harrlen, fun arr₂ hlen₂ => ?_⟩
                have hdrop : arr.drop (n+1) = [] := by
                  apply List.drop_eq_nil_of_le
                  omega
                have hdrop₂ : arr₂.drop (n+1) = [] := by
                  apply List.drop_eq_nil_of_le
                  omega
                have harr₂ : List.replicate (n+1)
                      (some { Maneuver.ofKwargs k with node := some n, length := (0:ℚ) })
                    ++ arr₂.drop (n+1)
                    = List.replicate (n+1)
                      (some { Maneuver.ofKwargs k with node := some n, length := (0:ℚ) })
                    ++ arr.drop (n+1) := by
                  rw [hdrop, hdrop₂]
                rw [phase1_step_none x y dist k ks' arr₂ _ T _ n hp hfc
                  ⟨by omega, hg.2.1, by rw [ihT.trans (by rfl)]; exact hg.2.2⟩ rfl harr₂]
                exact ihsim
              · rw [phase1_fail_of_guard x y dist k ks' arr t _ n hp hfc hg] at hrun
                exact absurd hrun (by simp)

theorem fillLoop_length (dist time : List ℚ) (lang : String) :
    ∀ (fuel node prev : ℕ) (arr arrO : List (Option Maneuver)),
      fillLoop dist time lang fuel node prev arr = some arrO → arrO.length = arr.length := by
  intro fuel
  induction fuel with
  | zero =>
      intro node prev arr arrO h
      exact absurd h (by rw [fillLoop]; simp)
  | succ f ihf =>
      intro node prev arr arrO h
      rw [fillLoop] at h
      simp only [Option.bind_eq_bind, Option.bind_eq_some] at h
      obtain ⟨m?, hget, m, hm, fills, hfills, h⟩ := h
      split at h
      · rw [Option.bind_eq_some] at h
        obtain ⟨next?, hnext, h⟩ := h
        rw [Option.bind_eq_some] at h
        obtain ⟨next, hnx, h⟩ := h
        rw [Option.bind_eq_some] at h
        obtain ⟨nn, hnn, h⟩ := h
        rw [ihf nn node _ arrO h, List.length_map]
      · rw [← Option.some.inj h, List.length_map]

theorem clean_clean (v : VoiceDirection) : v.clean.clean = v.clean := rfl

/-- C9 (amended): `set_maneuvers` is idempotent when the maneuver descriptors
match route nodes in strictly ascending order (so the reversed processing
order is strictly descending) and the final maneuver sits on the last route
node; the counterexample `setManeuvers_second_run_changes_time` shows the
unrestricted claim fails for the per-node time array. -/
theorem setManeuvers_idem_of_ordered (s s₁ : Narrative) (input : List ManeuverKwargs)
    (hchain : List.Chain' (fun a b => b < a) (matchedNodes s.x s.y input.reverse))
    (hfirst : (matchedNodes s.x s.y input.reverse).head? = some (s.maneuver.length - 1))
    (hne : s.maneuver ≠ [])
    (hrun : s.setManeuvers input = some s₁) :
    s₁.setManeuvers input = some s₁ := by
  rw [Narrative.setManeuvers] at hrun
  simp only [Option.bind_eq_bind] at hrun
  rw [Option.bind_eq_some] at hrun
  obtain ⟨⟨A, T, P⟩, hp1, hrest⟩ := hrun
  rw [Option.bind_eq_some] at hrest
  obtain ⟨arr1, hfl, hs1⟩ := hrest
  simp only [] at hp1 hfl hs1
  obtain ⟨hT, hA, hsim⟩ :=
    phase1_restart s.x s.y s.dist input.reverse s.maneuver A s.time T P hp1 hchain hfirst hne
  have harr1len : arr1.length = s.maneuver.length :=
    (fillLoop_length s.dist T s.language (A.length + 1) 0 0 A arr1 hfl).trans hA
  have hs1' := (Option.some.inj hs1).symm
  subst hs1'
  rw [Narrative.setManeuvers]
  simp only [Option.bind_eq_bind]
  rw [hsim arr1 harr1len, Option.some_bind, hfl, Option.some_bind]
  rfl

theorem fillLoop_step (dist time : List ℚ) (lang : String) (fuel node prev nn : ℕ)
    (arr arr' : List (Option Maneuver)) (m m' next : Maneuver) (fills : ℚ × ℚ)
    (hget : arr.get? node = some (some m))
    (hfills : legFills dist time node prev = some fills)
    (hm : { m with verbal_prompts_before := m.fillVerbalPrompts fills.1 fills.2 lang } = m')
    (hmap : arr.map (fun c => if c = some m then some m' else c) = arr')
    (hlt : node + 1 < arr'.length)
    (hnext : arr'.get? (node + 1) = some (some next))
    (hnn : next.node = some nn) :
    fillLoop dist time lang (fuel+1) node prev arr = fillLoop dist time lang fuel nn node arr' := by
  rw [fillLoop]
  simp only [Option.bind_eq_bind, hget, Option.some_bind, hfills, hm, hmap]
  rw [if_pos hlt]
  simp only [hnext, Option.some_bind, hnn]

theorem fillLoop_last (dist time : List ℚ) (lang : String) (fuel node prev : ℕ)
    (arr arr' : List (Option Maneuver)) (m m' : Maneuver) (fills : ℚ × ℚ)
    (hget : arr.get? node = some (some m))
    (hfills : legFills dist time node prev = some fills)
    (hm : { m with verbal_prompts_before := m.fillVerbalPrompts fills.1 fills.2 lang } = m')
    (hmap : arr.map (fun c => if c = some m then some m' else c) = arr')
    (hlt : ¬ node + 1 < arr'.length) :
    fillLoop dist time lang (fuel+1) node prev arr = some arr' := by
  rw [fillLoop]
  simp only [Option.bind_eq_bind, hget, Option.some_bind, hfills, hm, hmap]
  rw [if_neg hlt]

/-- A maneuver as `set_maneuvers` builds it from a descriptor with narrative
`narr`, duration 20 and no explicit verbal variants, matched to route node
`nd` with leg length `len`. -/
def mkManeuver (xv len : ℚ) (narr : String) (nd : ℕ) (prompts : List VerbalPrompt) : Maneuver :=
  { duration := 20, icon := "flag", length := len, narrative := narr,
    verbal_alert := some narr, verbal_pre := some narr, verbal_post := none,
    verbal_prompts_before := prompts, node := some nd, x := xv, y := 0 }

/-- A maneuver descriptor at route point `(xv, 0)` with narrative `narr`,
duration 20 and no optional fields. -/
def kwargsAt (xv : ℚ) (narr : String) : ManeuverKwargs :=
  { x := xv, y := 0, duration := 20, narrative := some narr }

theorem fc5_eval (q : ℚ) (n : ℕ) (h : (q = 10 ∧ n = 1) ∨ (q = 20 ∧ n = 2) ∨ (q = 30 ∧ n = 3) ∨ (q = 40 ∧ n = 4)) :
    findClosest [0,10,20,30,40] [0,0,0,0,0] q 0 = some n := by
  have hr : List.range 5 = [0,1,2,3,4] := rfl
  rcases h with ⟨rfl, rfl⟩ | ⟨rfl, rfl⟩ | ⟨rfl, rfl⟩ | ⟨rfl, rfl⟩ <;>
    norm_num [findClosest, hr]

theorem fc3_eval : findClosest [0,10,20] [0,0,0] 20 0 = some 2 := by
  have hr : List.range 3 = [0,1,2] := rfl
  norm_num [findClosest, hr]

/-- A five-node straight route with nodes 10 m apart, as stored by
`set_route`. -/
def narC9 : Narrative :=
  { dist := [40, 30, 20, 10, 0], last_node := 0,
    maneuver := [none, none, none, none, none], mode := "car",
    time := [6/5, 9/10, 3/5, 3/10, 0], x := [0, 10, 20, 30, 40],
    y := [0, 0, 0, 0, 0], current_maneuver := none, voice_engine := initVoice,
    navigation_active := false, language := "en" }

/-- Maneuver descriptors whose matched nodes (2, 4, 1, 3) are not in
ascending route order. -/
def inC9 : List ManeuverKwargs :=
  [kwargsAt 20 "a", kwargsAt 40 "b", kwargsAt 10 "c", kwargsAt 30 "d"]

def mD0 : Maneuver := mkManeuver 30 0 "d" 3 []
def mC0 : Maneuver := mkManeuver 10 20 "c" 1 []
def mB0 : Maneuver := mkManeuver 40 (-30) "b" 4 []
def mA0 : Maneuver := mkManeuver 20 20 "a" 2 []
def mA1 : Maneuver := mkManeuver 20 20 "a" 2 [⟨50, "a"⟩]
def mA2 : Maneuver := mkManeuver 20 20 "a" 2 [⟨100, "a"⟩]
def mB1 : Maneuver := mkManeuver 40 (-30) "b" 4 [⟨50, "b"⟩]

/-! Concrete evaluation of `set_maneuvers` on the five-node route: the
descriptor list matches nodes 2, 4, 1, 3, which the reversed loop processes
as 3, 1, 4, 2 - not descending, so legs written from node 1 read a cell that
a later iteration (node 2) rewrites. -/

theorem c9_phase1_run1 :
    phase1 [0,10,20,30,40] [0,0,0,0,0] [40,30,20,10,0] inC9.reverse
      [none, none, none, none, none] [6/5, 9/10, 3/5, 3/10, 0] none
    = some ([some mA0, some mA0, some mA0, some mB0, some mB0],
        [6/5, 203/10, 20, 10, 0], some (mA0, 2)) := by
  have hrev : inC9.reverse = [kwargsAt 30 "d", kwargsAt 10 "c", kwargsAt 40 "b", kwargsAt 20 "a"] := rfl
  rw [hrev]
  rw [phase1_step_none [0,10,20,30,40] [0,0,0,0,0] [40,30,20,10,0] (kwargsAt 30 "d")
      [kwargsAt 10 "c", kwargsAt 40 "b", kwargsAt 20 "a"]
      [none, none, none, none, none] [some mD0, some mD0, some mD0, some mD0, none] [6/5, 9/10, 3/5, 3/10, 0] mD0 3
      rfl (fc5_eval 30 3 (by norm_num)) (by norm_num) rfl rfl]
  rw [phase1_step_some [0,10,20,30,40] [0,0,0,0,0] [40,30,20,10,0] (kwargsAt 10 "c")
      [kwargsAt 40 "b", kwargsAt 20 "a"]
      [some mD0, some mD0, some mD0, some mD0, none] [some mC0, some mC0, some mD0, some mD0, none] [6/5, 9/10, 3/5, 3/10, 0] [6/5, 203/10, 103/10, 3/10, 0] mD0 mC0 3 1 1
      rfl (fc5_eval 10 1 (by norm_num)) (by norm_num)
      (by norm_num [mkManeuver, Maneuver.ofKwargs, kwargsAt, mC0])
      (by norm_num [kwargsAt]) (by norm_num) rfl
      (by norm_num [timeLegFill])]
  rw [phase1_step_some [0,10,20,30,40] [0,0,0,0,0] [40,30,20,10,0] (kwargsAt 40 "b")
      [kwargsAt 20 "a"]
      [some mC0, some mC0, some mD0, some mD0, none] [some mB0, some mB0, some mB0, some mB0, some mB0] [6/5, 203/10, 103/10, 3/10, 0] [6/5, 203/10, 103/10, 3/10, 0] mC0 mB0 1 4 (-3/2)
      rfl (fc5_eval 40 4 (by norm_num)) (by norm_num)
      (by norm_num [mkManeuver, Maneuver.ofKwargs, kwargsAt, mB0])
      (by norm_num [kwargsAt]) (by norm_num) rfl rfl]
  rw [phase1_step_some [0,10,20,30,40] [0,0,0,0,0] [40,30,20,10,0] (kwargsAt 20 "a")
      []
      [some mB0, some mB0, some mB0, some mB0, some mB0] [some mA0, some mA0, some mA0, some mB0, some mB0] [6/5, 203/10, 103/10, 3/10, 0] [6/5, 203/10, 20, 10, 0] mB0 mA0 4 2 1
      rfl (fc5_eval 20 2 (by norm_num)) (by norm_num)
      (by norm_num [mkManeuver, Maneuver.ofKwargs, kwargsAt, mA0])
      (by norm_num [kwargsAt]) (by norm_num) rfl
      (by norm_num [timeLegFill])]
  rw [phase1_done]

theorem c9_phase1_run2 :
    phase1 [0,10,20,30,40] [0,0,0,0,0] [40,30,20,10,0] inC9.reverse
      [some mA2, some mA2, some mA2, some mB1, some mB1] [6/5, 203/10, 20, 10, 0] none
    = some ([some mA0, some mA0, some mA0, some mB0, some mB0],
        [6/5, 30, 20, 10, 0], some (mA0, 2)) := by
  have hrev : inC9.reverse = [kwargsAt 30 "d", kwargsAt 10 "c", kwargsAt 40 "b", kwargsAt 20 "a"] := rfl
  rw [hrev]
  rw [phase1_step_none [0,10,20,30,40] [0,0,0,0,0] [40,30,20,10,0] (kwargsAt 30 "d")
      [kwargsAt 10 "c", kwargsAt 40 "b", kwargsAt 20 "a"]
      [some mA2, some mA2, some mA2, some mB1, some mB1] [some mD0, some mD0, some mD0, some mD0, some mB1] [6/5, 203/10, 20, 10, 0] mD0 3
      rfl (fc5_eval 30 3 (by norm_num)) (by norm_num) rfl rfl]
  rw [phase1_step_some [0,10,20,30,40] [0,0,0,0,0] [40,30,20,10,0] (kwargsAt 10 "c")
      [kwargsAt 40 "b", kwargsAt 20 "a"]
      [some mD0, some mD0, some mD0, some mD0, some mB1] [some mC0, some mC0, some mD0, some mD0, some mB1] [6/5, 203/10, 20, 10, 0] [6/5, 30, 20, 10, 0] mD0 mC0 3 1 1
      rfl (fc5_eval 10 1 (by norm_num)) (by norm_num)
      (by norm_num [mkManeuver, Maneuver.ofKwargs, kwargsAt, mC0])
      (by norm_num [kwargsAt]) (by norm_num) rfl
      (by norm_num [timeLegFill])]
  rw [phase1_step_some [0,10,20,30,40] [0,0,0,0,0] [40,30,20,10,0] (kwargsAt 40 "b")
      [kwargsAt 20 "a"]
      [some mC0, some mC0, some mD0, some mD0, some mB1] [some mB0, some mB0, some mB0, some mB0, some mB0] [6/5, 30, 20, 10, 0] [6/5, 30, 20, 10, 0] mC0 mB0 1 4 (-3/2)
      rfl (fc5_eval 40 4 (by norm_num)) (by norm_num)
      (by norm_num [mkManeuver, Maneuver.ofKwargs, kwargsAt, mB0])
      (by norm_num [kwargsAt]) (by norm_num) rfl rfl]
  rw [phase1_step_some [0,10,20,30,40] [0,0,0,0,0] [40,30,20,10,0] (kwargsAt 20 "a")
      []
      [some mB0, some mB0, some mB0, some mB0, some mB0] [some mA0, some mA0, some mA0, some mB0, some mB0] [6/5, 30, 20, 10, 0] [6/5, 30, 20, 10, 0] mB0 mA0 4 2 1
      rfl (fc5_eval 20 2 (by norm_num)) (by norm_num)
      (by norm_num [mkManeuver, Maneuver.ofKwargs, kwargsAt, mA0])
      (by norm_num [kwargsAt]) (by norm_num) rfl
      (by norm_num [timeLegFill])]
  rw [phase1_done]

theorem c9_fillLoop_run1 :
    fillLoop [40,30,20,10,0] [6/5, 203/10, 20, 10, 0] "en" 6 0 0
      [some mA0, some mA0, some mA0, some mB0, some mB0]
    = some [some mA2, some mA2, some mA2, some mB1, some mB1] := by
  rw [fillLoop_step [40,30,20,10,0] [6/5, 203/10, 20, 10, 0] "en" 5 0 0 2
      [some mA0, some mA0, some mA0, some mB0, some mB0] [some mA1, some mA1, some mA1, some mB0, some mB0] mA0 mA1 mA1 (0, 0)
      rfl rfl
      (by norm_num [mA0, mA1, mkManeuver, Maneuver.fillVerbalPrompts, voicePreDistance,
        voicePreTime])
      (by simp [mA0, mA1, mB0, mkManeuver]) (by norm_num) rfl rfl]
  rw [fillLoop_step [40,30,20,10,0] [6/5, 203/10, 20, 10, 0] "en" 4 2 0 4
      [some mA1, some mA1, some mA1, some mB0, some mB0] [some mA2, some mA2, some mA2, some mB0, some mB0] mA1 mA2 mB0 (20, -94/5)
      rfl (by norm_num [legFills])
      (by norm_num [mA1, mA2, mkManeuver, Maneuver.fillVerbalPrompts, voicePreDistance,
        voicePreTime, max_def])
      (by simp [mA1, mA2, mB0, mkManeuver]) (by norm_num) rfl rfl]
  rw [fillLoop_last [40,30,20,10,0] [6/5, 203/10, 20, 10, 0] "en" 3 4 2
      [some mA2, some mA2, some mA2, some mB0, some mB0] [some mA2, some mA2, some mA2, some mB1, some mB1] mB0 mB1 (20, 20)
      rfl (by norm_num [legFills])
      (by norm_num [mB0, mB1, mkManeuver, Maneuver.fillVerbalPrompts, voicePreDistance,
        voicePreTime, max_def])
      (by simp [mA2, mB0, mB1, mkManeuver]) (by norm_num)]

theorem c9_fillLoop_run2 :
    fillLoop [40,30,20,10,0] [6/5, 30, 20, 10, 0] "en" 6 0 0
      [some mA0, some mA0, some mA0, some mB0, some mB0]
    = some [some mA2, some mA2, some mA2, some mB1, some mB1] := by
  rw [fillLoop_step [40,30,20,10,0] [6/5, 30, 20, 10, 0] "en" 5 0 0 2
      [some mA0, some mA0, some mA0, some mB0, some mB0] [some mA1, some mA1, some mA1, some mB0, some mB0] mA0 mA1 mA1 (0, 0)
      rfl rfl
      (by norm_num [mA0, mA1, mkManeuver, Maneuver.fillVerbalPrompts, voicePreDistance,
        voicePreTime])
      (by simp [mA0, mA1, mB0, mkManeuver]) (by norm_num) rfl rfl]
  rw [fillLoop_step [40,30,20,10,0] [6/5, 30, 20, 10, 0] "en" 4 2 0 4
      [some mA1, some mA1, some mA1, some mB0, some mB0] [some mA2, some mA2, some mA2, some mB0, some mB0] mA1 mA2 mB0 (20, -94/5)
      rfl (by norm_num [legFills])
      (by norm_num [mA1, mA2, mkManeuver, Maneuver.fillVerbalPrompts, voicePreDistance,
        voicePreTime, max_def])
      (by simp [mA1, mA2, mB0, mkManeuver]) (by norm_num) rfl rfl]
  rw [fillLoop_last [40,30,20,10,0] [6/5, 30, 20, 10, 0] "en" 3 4 2
      [some mA2, some mA2, some mA2, some mB0, some mB0] [some mA2, some mA2, some mA2, some mB1, some mB1] mB0 mB1 (20, 20)
      rfl (by norm_num [legFills])
      (by norm_num [mB0, mB1, mkManeuver, Maneuver.fillVerbalPrompts, voicePreDistance,
        voicePreTime, max_def])
      (by simp [mA2, mB0, mB1, mkManeuver]) (by norm_num)]

/-- Result of the first `set_maneuvers` call on the five-node route. -/
def narC9run1 : Narrative :=
  { narC9 with maneuver := [some mA2, some mA2, some mA2, some mB1, some mB1], time := [6/5, 203/10, 20, 10, 0] }

/-- Result of the second, identical `set_maneuvers` call. -/
def narC9run2 : Narrative :=
  { narC9 with maneuver := [some mA2, some mA2, some mA2, some mB1, some mB1], time := [6/5, 30, 20, 10, 0] }

theorem c9_setManeuvers_run1 :
    Narrative.setManeuvers narC9 inC9 = some narC9run1 := by
  rw [Narrative.setManeuvers]
  simp only [Option.bind_eq_bind, narC9]
  rw [c9_phase1_run1, Option.some_bind]
  rw [show ([some mA0, some mA0, some mA0, some mB0, some mB0] : List (Option Maneuver)).length + 1 = 6 from rfl]
  rw [c9_fillLoop_run1, Option.some_bind]
  rfl

theorem c9_setManeuvers_run2 :
    Narrative.setManeuvers narC9run1 inC9 = some narC9run2 := by
  rw [Narrative.setManeuvers]
  simp only [Option.bind_eq_bind, narC9run1, narC9]
  rw [c9_phase1_run2, Option.some_bind]
  rw [show ([some mA0, some mA0, some mA0, some mB0, some mB0] : List (Option Maneuver)).length + 1 = 6 from rfl]
  rw [c9_fillLoop_run2, Option.some_bind]
  rfl

theorem narC9_from_setRoute :
    Narrative.setRoute taxiGeo initNarrative [0, 10, 20, 30, 40] [0, 0, 0, 0, 0] = narC9 := by
  norm_num [Narrative.setRoute, routeFold, taxiGeo, initNarrative, narC9, List.zip,
    List.replicate]

/-- C9 (counterexample): on a five-node route with maneuvers matched to nodes
2, 4, 1 and 3, the first `set_maneuvers` call stores time `203/10` at node 1,
the second identical call stores `30`: the per-node time array is not
idempotent (the maneuver table is). -/
theorem setManeuvers_second_run_changes_time :
    Narrative.setRoute taxiGeo initNarrative [0, 10, 20, 30, 40] [0, 0, 0, 0, 0] = narC9
    ∧ Narrative.setManeuvers narC9 inC9 = some narC9run1
    ∧ Narrative.setManeuvers narC9run1 inC9 = some narC9run2
    ∧ narC9run2.maneuver = narC9run1.maneuver
    ∧ narC9run2.time ≠ narC9run1.time := by
  refine ⟨narC9_from_setRoute, c9_setManeuvers_run1, c9_setManeuvers_run2, rfl, ?_⟩
  norm_num [narC9run1, narC9run2, narC9]

/-- A three-node straight route with nodes 10 m apart, as stored by
`set_route`. -/
def narW : Narrative :=
  { dist := [20, 10, 0], last_node := 0, maneuver := [none, none, none],
    mode := "car", time := [3/5, 3/10, 0], x := [0, 10, 20], y := [0, 0, 0],
    current_maneuver := none, voice_engine := initVoice,
    navigation_active := false, language := "en" }

/-- A single destination maneuver, matched to the last route node. -/
def inW : List ManeuverKwargs := [kwargsAt 20 "q"]

def mQ0 : Maneuver := mkManeuver 20 0 "q" 2 []
def mQ1 : Maneuver := mkManeuver 20 0 "q" 2 [⟨50, "q"⟩]
def mQ2 : Maneuver := mkManeuver 20 0 "q" 2 [⟨100, "q"⟩]

/-- Result of `set_maneuvers` on the three-node route. -/
def narWrun1 : Narrative :=
  { narW with maneuver := [some mQ2, some mQ2, some mQ2] }

theorem w_phase1_run1 :
    phase1 [0, 10, 20] [0, 0, 0] [20, 10, 0] inW.reverse
      [none, none, none] [3/5, 3/10, 0] none
    = some ([some mQ0, some mQ0, some mQ0], [3/5, 3/10, 0], some (mQ0, 2)) := by
  have hrev : inW.reverse = [kwargsAt 20 "q"] := rfl
  rw [hrev]
  rw [phase1_step_none [0, 10, 20] [0, 0, 0] [20, 10, 0] (kwargsAt 20 "q") []
      [none, none, none] [some mQ0, some mQ0, some mQ0] [3/5, 3/10, 0] mQ0 2
      rfl fc3_eval (by norm_num) rfl rfl]
  rw [phase1_done]

theorem w_fillLoop_run1 :
    fillLoop [20, 10, 0] [3/5, 3/10, 0] "en" 4 0 0 [some mQ0, some mQ0, some mQ0]
    = some [some mQ2, some mQ2, some mQ2] := by
  rw [fillLoop_step [20, 10, 0] [3/5, 3/10, 0] "en" 3 0 0 2
      [some mQ0, some mQ0, some mQ0] [some mQ1, some mQ1, some mQ1] mQ0 mQ1 mQ1 (0, 0)
      rfl rfl
      (by norm_num [mQ0, mQ1, mkManeuver, Maneuver.fillVerbalPrompts, voicePreDistance,
        voicePreTime])
      (by simp [mQ0, mQ1, mkManeuver]) (by norm_num) rfl rfl]
  rw [fillLoop_last [20, 10, 0] [3/5, 3/10, 0] "en" 2 2 0
      [some mQ1, some mQ1, some mQ1] [some mQ2, some mQ2, some mQ2] mQ1 mQ2 (20, 3/5)
      rfl (by norm_num [legFills])
      (by norm_num [mQ1, mQ2, mkManeuver, Maneuver.fillVerbalPrompts, voicePreDistance,
        voicePreTime, max_def])
      (by simp [mQ1, mQ2, mkManeuver]) (by norm_num)]

theorem w_setManeuvers_run1 :
    Narrative.setManeuvers narW inW = some narWrun1 := by
  rw [Narrative.setManeuvers]
  simp only [Option.bind_eq_bind, narW]
  rw [w_phase1_run1, Option.some_bind]
  rw [show ([some mQ0, some mQ0, some mQ0] : List (Option Maneuver)).length + 1 = 4 from rfl]
  rw [w_fillLoop_run1, Option.some_bind]
  rfl

/-- C9 (witness): a three-node route with a single maneuver on the last node
satisfies the ordering hypotheses, and `set_maneuvers` is idempotent on it. -/
theorem setManeuvers_idem_witness :
    List.Chain' (fun a b => b < a) (matchedNodes narW.x narW.y inW.reverse)
    ∧ (matchedNodes narW.x narW.y inW.reverse).head? = some (narW.maneuver.length - 1)
    ∧ narW.maneuver ≠ []
    ∧ Narrative.setManeuvers narW inW = some narWrun1
    ∧ Narrative.setManeuvers narWrun1 inW = some narWrun1 := by
  have hmn : matchedNodes narW.x narW.y inW.reverse = [2] := by
    simp [matchedNodes, List.filterMap_cons, inW, narW, kwargsAt, fc3_eval]
  have h1 : List.Chain' (fun a b => b < a) (matchedNodes narW.x narW.y inW.reverse) := by
    rw [hmn]; simp
  have h2 : (matchedNodes narW.x narW.y inW.reverse).head? = some (narW.maneuver.length - 1) := by
    rw [hmn]; rfl
  have h3 : narW.maneuver ≠ [] := by simp [narW]
  exact ⟨h1, h2, h3, w_setManeuvers_run1,
    setManeuvers_idem_of_ordered narW narWrun1 inW h1 h2 h3 w_setManeuvers_run1⟩
